import Mathlib

/-!
Shallow embedding of the bracket/voting engine of the hello-beomsan repository.

The authoritative code is `src/core/services/tournament_service.py`
(class `VotingSessionService`) together with the model methods in
`src/apps/tournament/models.py` (`Song`, `VotingSession`, `Match`, `Vote`).

Modelling conventions:
* Song ids are UUIDs rendered to strings in the JSON bracket; ids are opaque
  identities, embedded here as `Nat`.
* The bracket is a JSON dict with keys `round_1 .. round_R`, created
  contiguously from 1 by `generate_bracket_structure`; it is embedded as a
  `List (List Slot)` where list index `r - 1` holds the value of key
  `round_r`.  The Python membership test `round_key in bracket_data`
  becomes the bound check `1 ≤ r ∧ r ≤ length` (`roundSlots`).
* `current_match` is a `PositiveIntegerField`; the code only ever stores 1
  into it or increments it, so `current_match - 1` (a Python list index)
  is embedded with truncated `Nat` subtraction.
* Django rows for one session's `Match`/`Vote` tables are the lists
  `match_records` / `votes` (the Python table name `matches` is reserved
  syntax in Lean); `Song.objects` is the list `db`.  In
  `cast_vote` the query `Song.objects.filter(id__in=unique_song_ids)`
  builds one shared Python object per distinct id, so the statistics
  updates alias when both slot sides carry the same id; this is embedded
  by threading the updates through the database sequentially.
* `transaction.atomic` commits on a normal `return False` exit as well;
  the one branch of `cast_vote` that returns `False` after creating the
  `Match`/`Vote` rows is embedded exactly as the code has it (it commits
  the partial write), and is proved unreachable separately.
-/

inductive SessionStatus where
  | ACTIVE
  | COMPLETED
  | ABANDONED
deriving DecidableEq, Repr

/-- The song dict stored inside bracket slots:
`{'id': str(song.id), 'title': song.title or 'Unknown Song', 'original_song': song.original_song or ''}`. -/
structure SongData where
  id : Nat
  title : String
  original_song : String
deriving DecidableEq, Repr

/-- One side of a bracket slot: either a song dict or the placeholder dict
`{'placeholder': True, 'from_match': k}` produced during bracket generation. -/
inductive Entrant where
  | songE : SongData → Entrant
  | placeholderE : Nat → Entrant
deriving DecidableEq, Repr

/-- `match_data.get('song1', {}).get('id')`: a placeholder dict has no `id` key. -/
def entrant_id : Entrant → Option Nat
  | .songE s => some s.id
  | .placeholderE _ => none

/-- One match dict inside `bracket_data` (a bracket slot). -/
structure Slot where
  match_number : Nat
  song1 : Entrant
  song2 : Entrant
  winner : Option SongData
  completed : Bool
deriving DecidableEq, Repr

/-- A row of the `songs` table (`apps.tournament.models.Song`). -/
structure Song where
  id : Nat
  title : String
  original_song : String
  total_wins : Nat
  total_losses : Nat
  total_picks : Nat
  tournament_wins : Nat
deriving DecidableEq, Repr

/-- A row of the `matches` table, restricted to one session
(`unique_together = ['session', 'round_number', 'match_number']`). -/
structure MatchRec where
  round_number : Nat
  match_number : Nat
  song1_id : Nat
  song2_id : Nat
  winner_id : Nat
deriving DecidableEq, Repr

/-- A row of the `votes` table, restricted to one session. -/
structure VoteRec where
  round_number : Nat
  match_number : Nat
  chosen_song_id : Nat
deriving DecidableEq, Repr

abbrev BracketData := List (List Slot)

/-- The persistent state one `cast_vote` call touches: the `songs` table,
one `VotingSession` row, and that session's `Match`/`Vote` rows. -/
structure GState where
  db : List Song
  bracket_data : BracketData
  current_round : Nat
  current_match : Nat
  status : SessionStatus
  match_records : List MatchRec
  votes : List VoteRec
deriving DecidableEq, Repr

/-- Python `s or default` on strings. -/
def orDefault (s d : String) : String := if s = "" then d else s

/-- The song-data extraction at the top of `generate_bracket_structure`. -/
def song_to_data (s : Song) : SongData :=
  { id := s.id, title := orDefault s.title "Unknown Song", original_song := s.original_song }

/-- The inner `for i in range(0, len(current_songs), 2)` loop of
`generate_bracket_structure`: pairs consecutive entrants into match dicts
(match numbers counted from `k`), collecting the next round's entrant list
(placeholders in match order, an odd leftover appended as itself). -/
def pairRound : List Entrant → Nat → List Slot × List Entrant
  | [], _ => ([], [])
  | [x], _ => ([], [x])
  | x :: y :: rest, k =>
    let r := pairRound rest (k + 1)
    ({ match_number := k, song1 := x, song2 := y, winner := none, completed := false } :: r.1,
     Entrant.placeholderE k :: r.2)

/-- The `while len(current_songs) > 1 and round_num <= max_rounds` loop of
`generate_bracket_structure`, with `fuel = max_rounds + 1 - round_num`.
At `fuel = 0` (that is `round_num = 11`) the loop has exited with
`round_num > max_rounds`, and the function returns `None` regardless of
how many songs remain. -/
def genLoop : Nat → List Entrant → BracketData → Option BracketData
  | 0, _, _ => none
  | fuel + 1, current, acc =>
    if 1 < current.length then
      let p := pairRound current 1
      if p.1 = [] then some acc
      else genLoop fuel p.2 (acc ++ [p.1])
    else some acc

/-- `VotingSessionService.generate_bracket_structure` (max_rounds = 10). -/
def generate_bracket_structure (songs : List Song) : Option BracketData :=
  if songs.isEmpty then none
  else genLoop 10 (songs.map (fun s => Entrant.songE (song_to_data s))) []

/-- `round_key in bracket_data` plus the lookup `bracket_data[round_key]`
for `round_key = f'round_{r}'` (keys are `round_1 .. round_R`). -/
def roundSlots (b : BracketData) (r : Nat) : Option (List Slot) :=
  if 1 ≤ r ∧ r ≤ b.length then b.get? (r - 1) else none

/-- Length of round `r`, 0 when the round key is absent. -/
def roundLength (b : BracketData) (r : Nat) : Nat :=
  match roundSlots b r with
  | some ms => ms.length
  | none => 0

/-- Slot at 0-based round index `i`, 0-based slot index `j`. -/
def slotAt (b : BracketData) (i j : Nat) : Option Slot :=
  match b.get? i with
  | some ms => ms.get? j
  | none => none

/-- `VotingSession.get_current_match_data`. -/
def get_current_match_data (g : GState) : Option Slot :=
  if g.status = SessionStatus.COMPLETED then none
  else if g.bracket_data = [] then none
  else
    match roundSlots g.bracket_data g.current_round with
    | none => none
    | some ms =>
      if g.current_match ≤ ms.length then ms.get? (g.current_match - 1) else none

/-- Lookup of a song row by id (ids are unique in the `songs` table). -/
def dbFind (db : List Song) (i : Nat) : Option Song :=
  db.find? (fun s => s.id == i)

/-- `song.save()` after mutating the row with id `i` by `f`. -/
def updateSong (db : List Song) (i : Nat) (f : Song → Song) : List Song :=
  db.map (fun s => if s.id == i then f s else s)

/-- Replace the slot at 0-based index `idx` by `f` of it. -/
def modifySlot : List Slot → Nat → (Slot → Slot) → List Slot
  | [], _, _ => []
  | sl :: rest, 0, f => f sl :: rest
  | sl :: rest, n + 1, f => sl :: modifySlot rest n f

/-- The body of the `for i, match in enumerate(next_round_matches)` loop
of `update_next_round`: slot `i` gets `song1 = winners[2i]` and
`song2 = winners[2i+1]` when those indices are in range. -/
def fillSlot (winners : List SongData) (i : Nat) (sl : Slot) : Slot :=
  let sl1 := match winners.get? (2 * i) with
    | some w => { sl with song1 := Entrant.songE w }
    | none => sl
  match winners.get? (2 * i + 1) with
  | some w => { sl1 with song2 := Entrant.songE w }
  | none => sl1

/-- The `for i, match in enumerate(next_round_matches)` loop of
`update_next_round`. -/
def fillPairs (winners : List SongData) : List Slot → Nat → List Slot
  | [], _ => []
  | sl :: rest, i => fillSlot winners i sl :: fillPairs winners rest (i + 1)

/-- `VotingSessionService.update_next_round`.  A missing current-round key
raises `KeyError`, which `cast_vote` catches and ignores ("Continue anyway"),
so that case is the identity. -/
def update_next_round (g : GState) : GState :=
  match roundSlots g.bracket_data g.current_round with
  | none => g
  | some current_matches =>
    if current_matches.all (fun m => m.completed) then
      match roundSlots g.bracket_data (g.current_round + 1) with
      | none => g
      | some nxt =>
        let winners := current_matches.filterMap (fun m => m.winner)
        { g with bracket_data := g.bracket_data.set g.current_round (fillPairs winners nxt 0) }
    else g

/-- `VotingSession._record_tournament_winner`: reads `final_matches[0]`
of round `current_round`; a missing song row is `Song.DoesNotExist: pass`. -/
def record_tournament_winner (g : GState) : GState :=
  match roundSlots g.bracket_data g.current_round with
  | none => g
  | some final_matches =>
    match final_matches with
    | [] => g
    | first :: _ =>
      match first.winner with
      | none => g
      | some w =>
        match dbFind g.db w.id with
        | none => g
        | some _ =>
          let db2 := updateSong g.db w.id
            (fun s => { s with tournament_wins := s.tournament_wins + 1 })
          { g with db := db2 }

/-- `VotingSession.advance_to_next_match`. -/
def advance_to_next_match (g : GState) : GState :=
  match roundSlots g.bracket_data g.current_round with
  | none => g
  | some ms =>
    if g.current_match < ms.length then
      { g with current_match := g.current_match + 1 }
    else if (roundSlots g.bracket_data (g.current_round + 1)).isSome then
      { g with current_round := g.current_round + 1, current_match := 1 }
    else
      record_tournament_winner { g with status := SessionStatus.COMPLETED }

/-- Step 5a of `cast_vote`: `Match.objects.create`, `Vote.objects.create`,
and the two statistics updates — the chosen row first, then the loser row
(one shared Python object when the two ids coincide, so the updates
compound). -/
def write_vote_rows (g : GState) (chosen : Song) (song1_id song2_id : Nat) : GState :=
  let mrec : MatchRec :=
    { round_number := g.current_round, match_number := g.current_match,
      song1_id := song1_id, song2_id := song2_id, winner_id := chosen.id }
  let vrec : VoteRec :=
    { round_number := g.current_round, match_number := g.current_match,
      chosen_song_id := chosen.id }
  let db1 := updateSong g.db chosen.id
    (fun s => { s with total_wins := s.total_wins + 1, total_picks := s.total_picks + 1 })
  let loser_id := if chosen.id = song1_id then song2_id else song1_id
  let db2 := updateSong db1 loser_id
    (fun s => { s with total_losses := s.total_losses + 1, total_picks := s.total_picks + 1 })
  { g with db := db2, match_records := g.match_records ++ [mrec], votes := g.votes ++ [vrec] }

/-- The winner dict written into the bracket slot by `cast_vote`. -/
def winner_dict (chosen : Song) : SongData :=
  { id := chosen.id, title := orDefault chosen.title "Unknown Song",
    original_song := chosen.original_song }

/-- Step 5b of `cast_vote`: "Update bracket data with winner".  Mirrors
`if round_key in session.bracket_data and session.current_match <=
len(session.bracket_data[round_key])`; on the else branch the code logs
and returns `False` (the transaction still commits the rows written so
far, which is why the caller keeps the partial state). -/
def write_winner (g : GState) (chosen : Song) : Bool × GState :=
  match roundSlots g.bracket_data g.current_round with
  | none => (false, g)
  | some ms =>
    if g.current_match ≤ ms.length then
      let ms2 := modifySlot ms (g.current_match - 1)
        (fun sl => { sl with winner := some (winner_dict chosen), completed := true })
      (true, { g with bracket_data := g.bracket_data.set (g.current_round - 1) ms2 })
    else (false, g)

/-- The committed tail of `cast_vote` (everything after the duplicate-vote
guard passes): create the `Match` and `Vote` rows, update the song
statistics, write the winner into the bracket slot, run
`update_next_round`, then `advance_to_next_match`. -/
def apply_vote (g : GState) (chosen : Song) (song1_id song2_id : Nat) : Bool × GState :=
  let g1 := write_vote_rows g chosen song1_id song2_id
  let r := write_winner g1 chosen
  if r.1 then (true, advance_to_next_match (update_next_round r.2))
  else (false, r.2)

/-- `VotingSessionService.cast_vote` (the body of one transaction attempt;
the retry loop only re-runs on database lock errors, which the pure model
does not produce). -/
def cast_vote (g : GState) (chosen_song_id : Nat) : Bool × GState :=
  if g.status ≠ SessionStatus.ACTIVE then (false, g)
  else
    match get_current_match_data g with
    | none => (false, g)
    | some slot =>
      match entrant_id slot.song1 with
      | none => (false, g)
      | some song1_id =>
        match entrant_id slot.song2 with
        | none => (false, g)
        | some song2_id =>
          match dbFind g.db chosen_song_id with
          | none => (false, g)
          | some chosen =>
            match dbFind g.db song1_id with
            | none => (false, g)
            | some _ =>
              match dbFind g.db song2_id with
              | none => (false, g)
              | some _ =>
                if chosen_song_id ≠ song1_id ∧ chosen_song_id ≠ song2_id then (false, g)
                else if g.match_records.any
                    (fun m => m.round_number == g.current_round
                      && m.match_number == g.current_match) then
                  (false, g)
                else apply_vote g chosen song1_id song2_id

/-- A value of `matches_completed` / `matches_total` in `progress_data`:
either an integer count or the literal string `'All'`. -/
inductive CountVal where
  | num : Nat → CountVal
  | all
deriving DecidableEq, Repr

/-- The dict returned by `VotingSession.progress_data`
(percentage as an exact rational). -/
structure ProgressData where
  percentage : ℚ
  matches_completed : CountVal
  matches_total : CountVal
deriving DecidableEq, Repr

/-- Round-half-to-even on rationals, the tie rule of Python's `round`. -/
def roundHalfEven (x : ℚ) : ℤ :=
  let f := Int.floor x
  if x - f < 1 / 2 then f
  else if 1 / 2 < x - f then f + 1
  else if f % 2 = 0 then f else f + 1

/-- Python `round(x, 1)` (modelled exactly on rationals; the float
representation error of CPython's `round` is below claim granularity). -/
def pyRound1 (x : ℚ) : ℚ := (roundHalfEven (x * 10) : ℚ) / 10

/-- `for round_num in range(a, a + n): if round_key in bracket_data:
total += len(bracket_data[round_key])` — the summation loops of
`progress_data`, iterating rounds `a, a+1, .., a+n-1`. -/
def sumRoundLens (b : BracketData) (a : Nat) : Nat → Nat
  | 0 => 0
  | n + 1 => roundLength b a + sumRoundLens b (a + 1) n

/-- `VotingSession.progress_data` (a `cached_property`; the caching only
memoizes within one request, so the recomputation is modelled directly). -/
def progress_data (g : GState) : ProgressData :=
  if g.status = SessionStatus.COMPLETED then
    { percentage := 100, matches_completed := CountVal.all, matches_total := CountVal.all }
  else
    let future := sumRoundLens g.bracket_data (g.current_round + 1) (8 - (g.current_round + 1))
    let past := sumRoundLens g.bracket_data 1 (g.current_round - 1)
    let cur : Nat × Nat :=
      match roundSlots g.bracket_data g.current_round with
      | some ms => (ms.length, g.current_match - 1)
      | none => (0, 0)
    let total_matches := future + past + cur.1
    let completed_matches := past + cur.2
    if total_matches = 0 then
      { percentage := 0, matches_completed := CountVal.num 0, matches_total := CountVal.num 0 }
    else
      { percentage := pyRound1 ((completed_matches : ℚ) / (total_matches : ℚ) * 100),
        matches_completed := CountVal.num completed_matches,
        matches_total := CountVal.num total_matches }

/-- The dict returned by `VotingSessionService.calculate_progress`. -/
structure ProgressInfo where
  completed_matches : CountVal
  total_matches : CountVal
  percentage : ℚ
  current_round : Nat
  total_rounds : Nat
deriving DecidableEq, Repr

/-- `VotingSessionService.calculate_progress`.  `hasattr(session,
'progress_data')` is always true (the model class defines that
`cached_property`), so the function always takes the cached-property
branch; the "fallback to original calculation" below it is dead code. -/
def calculate_progress (g : GState) : ProgressInfo :=
  let cached := progress_data g
  { completed_matches := cached.matches_completed,
    total_matches := cached.matches_total,
    percentage := cached.percentage,
    current_round := g.current_round,
    total_rounds := g.bracket_data.length }

/-- Spec-language reading of `totalSlotCount`: the sum of slot counts
across all rounds of the bracket. -/
def specTotalSlots (b : BracketData) : Nat :=
  (b.map (fun ms => ms.length)).sum

/-- Spec-language reading of `completedSlotCount`: the number of slots
with `completed == true`. -/
def specCompletedSlots (b : BracketData) : Nat :=
  (b.map (fun ms => (ms.filter (fun sl => sl.completed)).length)).sum

/-- Spec-language reading of the progress percentage: 0 when there are no
slots, else `round(completed/total*100, 1)`. -/
def specPercentage (b : BracketData) : ℚ :=
  if specTotalSlots b = 0 then 0
  else pyRound1 ((specCompletedSlots b : ℚ) / (specTotalSlots b : ℚ) * 100)

/-- The session row `create_voting_session` persists for a freshly
generated bracket `br`: cursor `(1, 1)`, status ACTIVE, no `Match` or
`Vote` rows yet. -/
def init_session (db : List Song) (br : BracketData) : GState :=
  { db := db, bracket_data := br, current_round := 1, current_match := 1,
    status := SessionStatus.ACTIVE, match_records := [], votes := [] }

/-- States reachable by `create_voting_session` followed by any sequence
of `cast_vote` calls (successful or failing) on that session.  The
creation policy in `create_voting_session` always hands
`generate_bracket_structure` an even number of songs between 2 and 128
(a single song is doubled, an odd count below 128 is padded with
`all_songs[0]`, and 128 are sampled otherwise), and refuses the session
when the generated bracket is empty or `None` (`if not bracket_data`). -/
inductive Reachable : GState → Prop
  | create (db selected : List Song) (br : BracketData)
      (h2 : 2 ≤ selected.length) (heven : selected.length % 2 = 0)
      (h128 : selected.length ≤ 128)
      (hgen : generate_bracket_structure selected = some br) (hne : br ≠ []) :
      Reachable (init_session db br)
  | vote (g : GState) (c : Nat) (h : Reachable g) : Reachable (cast_vote g c).2

/-- The cursor/completion facts that hold while a session is ACTIVE. -/
structure ActiveInv (g : GState) : Prop where
  r_lo : 1 ≤ g.current_round
  r_hi : g.current_round ≤ g.bracket_data.length
  m_lo : 1 ≤ g.current_match
  m_hi : ∀ ms, g.bracket_data.get? (g.current_round - 1) = some ms →
    g.current_match ≤ ms.length
  pattern : ∀ i j sl, slotAt g.bracket_data i j = some sl →
    (sl.completed = true ↔
      (i + 1 < g.current_round ∨ (i + 1 = g.current_round ∧ j + 1 < g.current_match)))

/-- The inductive invariant of reachable session states. -/
structure SessionInv (g : GState) : Prop where
  rounds_nonempty : ∀ ms ∈ g.bracket_data, ms ≠ []
  last_single : ∀ ms, g.bracket_data.getLast? = some ms → ms.length = 1
  depth_le : g.bracket_data.length ≤ 7
  win_comp : ∀ i j sl, slotAt g.bracket_data i j = some sl →
    (sl.completed = true ↔ sl.winner.isSome = true)
  active_inv : g.status = SessionStatus.ACTIVE → ActiveInv g

/-- A bare catalog row with id `i` (counters zero, blank display fields). -/
def mkSong (i : Nat) : Song :=
  { id := i, title := "", original_song := "",
    total_wins := 0, total_losses := 0, total_picks := 0, tournament_wins := 0 }

/-- Catalog rows with ids `1 .. n`. -/
def mkSongs (n : Nat) : List Song := (List.range n).map (fun i => mkSong (i + 1))

/-- A freshly created session over the whole catalog `mkSongs n` (the
creation policy selects all songs when `2 ≤ n < 128` and `n` is even). -/
def demo_session (n : Nat) : GState :=
  init_session (mkSongs n) ((generate_bracket_structure (mkSongs n)).getD [])

/-- A fresh two-song session whose `matches` table already holds a row for
`(round 1, match 1)` — the state a replayed `cast_vote` request observes. -/
def demo_dup : GState :=
  { demo_session 2 with match_records :=
      [{ round_number := 1, match_number := 1, song1_id := 1, song2_id := 2, winner_id := 1 }] }

/-- The degenerate one-song session: `create_voting_session` duplicates the
single catalog song (`selected_songs = all_songs * 2`), so round 1 pairs
the song against itself. -/
def demo_self : GState :=
  init_session (mkSongs 1) ((generate_bracket_structure (mkSongs 1 ++ mkSongs 1)).getD [])

/-- The single self-match slot of `demo_self`. -/
def demo_self_slot : Slot :=
  { match_number := 1,
    song1 := Entrant.songE { id := 1, title := "Unknown Song", original_song := "" },
    song2 := Entrant.songE { id := 1, title := "Unknown Song", original_song := "" },
    winner := none, completed := false }

/-- The 4-song session after its two round-1 votes, with the cursor moved
back to round 1: a concrete state whose current round is fully completed
and which still has a following round in `bracket_data`. -/
def demo_c5 : GState :=
  { (cast_vote (cast_vote (demo_session 4) 1).2 3).2 with current_round := 1 }

/-- Round sizes generated from a participant count `c` under the loop's
fuel: one round of `c` participants yields `c / 2` slots and
`(c + 1) / 2 = ⌈c/2⌉` next-round participants (paired winners plus an
odd leftover carried forward). -/
def sizeChain : Nat → Nat → List Nat
  | 0, _ => []
  | fuel + 1, c => if 1 < c then c / 2 :: sizeChain fuel ((c + 1) / 2) else []

/-- Whether the generation loop exhausts its fuel before the participant
count drops to 1 (in which case `generate_bracket_structure` returns
`None`). -/
def needsMore : Nat → Nat → Bool
  | 0, _ => true
  | fuel + 1, c => if 1 < c then needsMore fuel ((c + 1) / 2) else false

/-- The committed state after steps 5a and 5b of a successful `cast_vote`
(rows written, statistics updated, winner recorded in slot
`(current_round, current_match)` of round list `ms`), before
`update_next_round` and `advance_to_next_match` run. -/
def vote_written (g : GState) (chosen : Song) (s1 s2 : Nat) (ms : List Slot) : GState :=
  { write_vote_rows g chosen s1 s2 with
    bracket_data := g.bracket_data.set (g.current_round - 1)
      (modifySlot ms (g.current_match - 1)
        (fun sl => { sl with winner := some (winner_dict chosen), completed := true })) }

theorem pairRound_fst_length : ∀ (cur : List Entrant) (k : Nat),
    (pairRound cur k).1.length = cur.length / 2
  | [], _ => by simp [pairRound]
  | [_], _ => by simp [pairRound]
  | _ :: _ :: rest, k => by
    have ih := pairRound_fst_length rest (k + 1)
    simp only [pairRound, List.length_cons]
    omega

theorem pairRound_snd_length : ∀ (cur : List Entrant) (k : Nat),
    (pairRound cur k).2.length = (cur.length + 1) / 2
  | [], _ => by simp [pairRound]
  | [_], _ => by simp [pairRound]
  | _ :: _ :: rest, k => by
    have ih := pairRound_snd_length rest (k + 1)
    simp only [pairRound, List.length_cons]
    omega

theorem pairRound_fst_fresh : ∀ (cur : List Entrant) (k : Nat),
    ∀ sl ∈ (pairRound cur k).1, sl.completed = false ∧ sl.winner = none
  | [], _ => by simp [pairRound]
  | [_], _ => by simp [pairRound]
  | x :: y :: rest, k => by
    have ih := pairRound_fst_fresh rest (k + 1)
    intro sl hsl
    simp only [pairRound, List.mem_cons] at hsl
    rcases hsl with h | h
    · subst h; exact ⟨rfl, rfl⟩
    · exact ih sl h

theorem genLoop_sizes : ∀ (fuel : Nat) (cur : List Entrant) (acc b : BracketData),
    genLoop fuel cur acc = some b →
    b.map (fun ms => ms.length) = acc.map (fun ms => ms.length) ++ sizeChain fuel cur.length := by
  intro fuel
  induction fuel with
  | zero => intro cur acc b h; simp [genLoop] at h
  | succ fuel ih =>
    intro cur acc b h
    by_cases hlen : 1 < cur.length
    · have hne : (pairRound cur 1).1 ≠ [] := by
        intro hnil
        have := pairRound_fst_length cur 1
        rw [hnil] at this
        simp at this
        omega
      rw [genLoop, if_pos hlen, if_neg hne] at h
      have := ih (pairRound cur 1).2 (acc ++ [(pairRound cur 1).1]) b h
      rw [this, pairRound_snd_length]
      simp only [List.map_append, List.map_cons, List.map_nil, List.append_assoc,
        List.cons_append, List.nil_append]
      rw [sizeChain, if_pos hlen, pairRound_fst_length]
    · rw [genLoop, if_neg hlen] at h
      cases h
      rw [sizeChain, if_neg hlen]
      simp

theorem genLoop_rounds : ∀ (fuel : Nat) (cur : List Entrant) (acc b : BracketData),
    genLoop fuel cur acc = some b →
    ∀ ms ∈ b, ms ∈ acc ∨ (ms ≠ [] ∧ ∀ sl ∈ ms, sl.completed = false ∧ sl.winner = none) := by
  intro fuel
  induction fuel with
  | zero => intro cur acc b h; simp [genLoop] at h
  | succ fuel ih =>
    intro cur acc b h
    by_cases hlen : 1 < cur.length
    · have hne : (pairRound cur 1).1 ≠ [] := by
        intro hnil
        have := pairRound_fst_length cur 1
        rw [hnil] at this
        simp at this
        omega
      rw [genLoop, if_pos hlen, if_neg hne] at h
      intro ms hms
      rcases ih (pairRound cur 1).2 (acc ++ [(pairRound cur 1).1]) b h ms hms with hacc | hfresh
      · rcases List.mem_append.mp hacc with h1 | h1
        · exact Or.inl h1
        · right
          have : ms = (pairRound cur 1).1 := by simpa using h1
          subst this
          exact ⟨hne, pairRound_fst_fresh cur 1⟩
      · exact Or.inr hfresh
    · rw [genLoop, if_neg hlen] at h
      cases h
      intro ms hms
      exact Or.inl hms

theorem genLoop_none : ∀ (fuel : Nat) (cur : List Entrant) (acc : BracketData),
    genLoop fuel cur acc = none ↔ needsMore fuel cur.length = true := by
  intro fuel
  induction fuel with
  | zero => intro cur acc; simp [genLoop, needsMore]
  | succ fuel ih =>
    intro cur acc
    by_cases hlen : 1 < cur.length
    · have hne : (pairRound cur 1).1 ≠ [] := by
        intro hnil
        have := pairRound_fst_length cur 1
        rw [hnil] at this
        simp at this
        omega
      rw [genLoop, if_pos hlen, if_neg hne, needsMore, if_pos hlen,
        ← pairRound_snd_length cur 1]
      exact ih (pairRound cur 1).2 (acc ++ [(pairRound cur 1).1])
    · rw [genLoop, if_neg hlen, needsMore, if_neg hlen]
      simp

theorem needsMore_iff : ∀ (fuel c : Nat),
    needsMore (fuel + 1) c = true ↔ 2 ^ fuel + 1 ≤ c := by
  intro fuel
  induction fuel with
  | zero =>
    intro c
    rw [needsMore]
    by_cases h : 1 < c
    · rw [if_pos h, needsMore]; simpa using h
    · rw [if_neg h]; simp; omega
  | succ fuel ih =>
    intro c
    rw [needsMore]
    by_cases h : 1 < c
    · rw [if_pos h, ih]
      have hp : 1 ≤ 2 ^ fuel := Nat.one_le_two_pow
      rw [pow_succ]
      omega
    · rw [if_neg h]
      have hp : 1 ≤ 2 ^ fuel := Nat.one_le_two_pow
      simp only [Bool.false_eq_true, false_iff]
      rw [pow_succ]
      omega

theorem sizeChain_last : ∀ (fuel c : Nat), 2 ≤ c → needsMore fuel c = false →
    ∃ l, sizeChain fuel c = l ++ [1] := by
  intro fuel
  induction fuel with
  | zero => intro c _ hnm; simp [needsMore] at hnm
  | succ fuel ih =>
    intro c hc hnm
    have hlt : 1 < c := hc
    rw [needsMore, if_pos hlt] at hnm
    rw [sizeChain, if_pos hlt]
    by_cases hnext : 2 ≤ (c + 1) / 2
    · obtain ⟨l, hl⟩ := ih ((c + 1) / 2) hnext hnm
      exact ⟨c / 2 :: l, by rw [hl, List.cons_append]⟩
    · have hc2 : c = 2 := by omega
      subst hc2
      refine ⟨[], ?_⟩
      have : (2 + 1) / 2 = 1 := by norm_num
      rw [this]
      cases fuel with
      | zero => simp [sizeChain]
      | succ fuel => rw [sizeChain, if_neg (by norm_num)]; rfl

theorem generate_sizes (songs : List Song) (br : BracketData)
    (h : generate_bracket_structure songs = some br) :
    br.map (fun ms => ms.length) = sizeChain 10 songs.length := by
  unfold generate_bracket_structure at h
  by_cases he : songs.isEmpty
  · rw [if_pos he] at h; cases h
  · rw [if_neg he] at h
    have := genLoop_sizes 10 _ [] br h
    simpa using this

theorem generate_fresh (songs : List Song) (br : BracketData)
    (h : generate_bracket_structure songs = some br) :
    ∀ ms ∈ br, ms ≠ [] ∧ ∀ sl ∈ ms, sl.completed = false ∧ sl.winner = none := by
  unfold generate_bracket_structure at h
  by_cases he : songs.isEmpty
  · rw [if_pos he] at h; cases h
  · rw [if_neg he] at h
    intro ms hms
    rcases genLoop_rounds 10 _ [] br h ms hms with hacc | hok
    · cases hacc
    · exact hok

theorem generate_none_iff (songs : List Song) :
    generate_bracket_structure songs = none ↔ (songs = [] ∨ 513 ≤ songs.length) := by
  unfold generate_bracket_structure
  by_cases he : songs.isEmpty
  · rw [if_pos he]
    simp [List.isEmpty_iff.mp he]
  · rw [if_neg he, genLoop_none, List.length_map]
    have hne : songs ≠ [] := by simpa [List.isEmpty_iff] using he
    rw [show (10 : Nat) = 9 + 1 from rfl, needsMore_iff]
    have h512 : (2 : Nat) ^ 9 = 512 := by norm_num
    rw [h512]
    constructor
    · intro h; exact Or.inr h
    · rintro (h | h)
      · exact absurd h hne
      · exact h

theorem sizeChain_len_le : ∀ c : Nat, c < 129 → (sizeChain 10 c).length ≤ 7 := by decide

theorem generate_depth (songs : List Song) (br : BracketData)
    (h : generate_bracket_structure songs = some br) (h128 : songs.length ≤ 128) :
    br.length ≤ 7 := by
  have hs := generate_sizes songs br h
  have hlen : br.length = (sizeChain 10 songs.length).length := by
    rw [← hs, List.length_map]
  rw [hlen]
  exact sizeChain_len_le songs.length (by omega)

theorem generate_last (songs : List Song) (br : BracketData)
    (h : generate_bracket_structure songs = some br) (h2 : 2 ≤ songs.length) :
    ∀ ms, br.getLast? = some ms → ms.length = 1 := by
  have hnm : needsMore 10 songs.length = false := by
    by_contra hh
    have hm : needsMore 10 songs.length = true := by
      cases hx : needsMore 10 songs.length
      · exact absurd hx hh
      · rfl
    have : generate_bracket_structure songs = none := by
      unfold generate_bracket_structure
      have he : ¬songs.isEmpty := by
        cases songs with
        | nil => simp at h2
        | cons a l => simp
      rw [if_neg he, genLoop_none, List.length_map]
      exact hm
    rw [this] at h
    cases h
  obtain ⟨l, hl⟩ := sizeChain_last 10 songs.length h2 hnm
  intro ms hms
  have hs := generate_sizes songs br h
  have hlast : (br.map (fun ms => ms.length)).getLast? = some ms.length := by
    rw [List.getLast?_map, hms]
    rfl
  rw [hs, hl, List.getLast?_concat] at hlast
  exact (Option.some_injective _ hlast).symm

theorem list_set_get? {α : Type} : ∀ (l : List α) (k : Nat) (a : α) (j : Nat),
    (l.set k a).get? j = if j = k ∧ k < l.length then some a else l.get? j
  | [], k, a, j => by simp
  | x :: rest, 0, a, 0 => by simp
  | x :: rest, 0, a, j + 1 => by
    simp only [List.set_cons_zero, List.get?_cons_succ, List.length_cons]
    rw [if_neg]
    omega
  | x :: rest, k + 1, a, 0 => by
    simp only [List.set_cons_succ, List.get?_cons_zero, List.length_cons]
    rw [if_neg]
    omega
  | x :: rest, k + 1, a, j + 1 => by
    simp only [List.set_cons_succ, List.get?_cons_succ, List.length_cons]
    rw [list_set_get? rest k a j]
    by_cases h : j = k ∧ k < rest.length
    · rw [if_pos h, if_pos (by omega)]
    · rw [if_neg h, if_neg (by omega)]

theorem modifySlot_length : ∀ (ms : List Slot) (idx : Nat) (f : Slot → Slot),
    (modifySlot ms idx f).length = ms.length
  | [], _, _ => rfl
  | _ :: rest, 0, f => rfl
  | _ :: rest, n + 1, f => by
    simp only [modifySlot, List.length_cons, modifySlot_length rest n f]

theorem modifySlot_get? : ∀ (ms : List Slot) (idx : Nat) (f : Slot → Slot) (k : Nat),
    (modifySlot ms idx f).get? k = if k = idx then (ms.get? idx).map f else ms.get? k
  | [], idx, f, k => by simp [modifySlot]
  | sl :: rest, 0, f, 0 => by simp [modifySlot]
  | sl :: rest, 0, f, k + 1 => by simp [modifySlot]
  | sl :: rest, n + 1, f, 0 => by simp [modifySlot]
  | sl :: rest, n + 1, f, k + 1 => by
    simp only [modifySlot, List.get?_cons_succ]
    rw [modifySlot_get? rest n f k]
    by_cases h : k = n
    · rw [if_pos h, if_pos (by omega)]
    · rw [if_neg h, if_neg (by omega)]

theorem fillPairs_length : ∀ (winners : List SongData) (nxt : List Slot) (i : Nat),
    (fillPairs winners nxt i).length = nxt.length
  | _, [], _ => rfl
  | w, sl :: rest, i => by
    simp only [fillPairs, List.length_cons, fillPairs_length w rest (i + 1)]

theorem fillPairs_get? : ∀ (winners : List SongData) (nxt : List Slot) (i k : Nat),
    (fillPairs winners nxt i).get? k = (nxt.get? k).map (fillSlot winners (i + k))
  | w, [], i, k => by simp [fillPairs]
  | w, sl :: rest, i, 0 => by simp [fillPairs]
  | w, sl :: rest, i, k + 1 => by
    simp only [fillPairs, List.get?_cons_succ]
    rw [fillPairs_get? w rest (i + 1) k]
    have harith : i + 1 + k = i + (k + 1) := by omega
    rw [harith]

theorem fillSlot_skel (winners : List SongData) (i : Nat) (sl : Slot) :
    (fillSlot winners i sl).completed = sl.completed ∧
    (fillSlot winners i sl).winner = sl.winner ∧
    (fillSlot winners i sl).match_number = sl.match_number := by
  unfold fillSlot
  rcases winners.get? (2 * i) with _ | w1 <;> rcases winners.get? (2 * i + 1) with _ | w2 <;>
    exact ⟨rfl, rfl, rfl⟩

theorem dbFind_updateSong (db : List Song) (i j : Nat) (f : Song → Song)
    (hf : ∀ s, (f s).id = s.id) :
    dbFind (updateSong db i f) j = (dbFind db j).map (fun s => if s.id == i then f s else s) := by
  induction db with
  | nil => rfl
  | cons s rest ih =>
    have hcons : updateSong (s :: rest) i f
        = (if s.id == i then f s else s) :: updateSong rest i f := rfl
    have hsid : (if s.id == i then f s else s).id = s.id := by
      by_cases h : s.id = i
      · simp [h, hf]
      · simp [h]
    rw [hcons]
    by_cases hj : s.id = j
    · have h1 : dbFind ((if s.id == i then f s else s) :: updateSong rest i f) j
          = some (if s.id == i then f s else s) :=
        List.find?_cons_of_pos _ (by simp only [hsid]; simp [hj])
      have h2 : dbFind (s :: rest) j = some s :=
        List.find?_cons_of_pos _ (by simp [hj])
      rw [h1, h2]
      rfl
    · have h1 : dbFind ((if s.id == i then f s else s) :: updateSong rest i f) j
          = dbFind (updateSong rest i f) j :=
        List.find?_cons_of_neg _ (by simp only [hsid]; simp [hj])
      have h2 : dbFind (s :: rest) j = dbFind rest j :=
        List.find?_cons_of_neg _ (by simp [hj])
      rw [h1, h2]
      exact ih

theorem dbFind_id (db : List Song) (i : Nat) (s : Song) (h : dbFind db i = some s) :
    s.id = i := by
  have := List.find?_some h
  simpa using this

theorem dbFind_updateSong_eq (db : List Song) (i : Nat) (f : Song → Song)
    (hf : ∀ s, (f s).id = s.id) :
    dbFind (updateSong db i f) i = (dbFind db i).map f := by
  rw [dbFind_updateSong db i i f hf]
  cases h : dbFind db i with
  | none => rfl
  | some s =>
    have hs := dbFind_id db i s h
    simp [hs]

theorem dbFind_updateSong_ne (db : List Song) (i j : Nat) (f : Song → Song)
    (hf : ∀ s, (f s).id = s.id) (hne : i ≠ j) :
    dbFind (updateSong db i f) j = dbFind db j := by
  rw [dbFind_updateSong db i j f hf]
  cases h : dbFind db j with
  | none => rfl
  | some s =>
    have hs := dbFind_id db j s h
    have hprop : ¬s.id = i := by
      rw [hs]
      exact fun hh => hne hh.symm
    simp [hprop]

theorem updateSong_pred (db : List Song) (i : Nat) (f : Song → Song)
    (P : Song → Prop) (hdb : ∀ s ∈ db, P s) (hpf : ∀ s, P s → P (f s)) :
    ∀ s ∈ updateSong db i f, P s := by
  intro s hs
  unfold updateSong at hs
  obtain ⟨t, ht, hts⟩ := List.mem_map.mp hs
  by_cases h : t.id = i
  · rw [← hts]
    simp only [h, beq_self_eq_true, if_true]
    exact hpf t (hdb t ht)
  · rw [← hts]
    simp only [show (t.id == i) = false by simp [h], if_false]
    exact hdb t ht

theorem update_next_round_ss (g : GState) :
    (update_next_round g).db = g.db ∧
    (update_next_round g).current_round = g.current_round ∧
    (update_next_round g).current_match = g.current_match ∧
    (update_next_round g).status = g.status ∧
    (update_next_round g).match_records = g.match_records ∧
    (update_next_round g).votes = g.votes := by
  cases hr : roundSlots g.bracket_data g.current_round with
  | none => simp [update_next_round, hr]
  | some cur =>
    by_cases hall : cur.all (fun m => m.completed) = true
    · cases hn : roundSlots g.bracket_data (g.current_round + 1) with
      | none => simp [update_next_round, hr, hall, hn]
      | some nxt => simp [update_next_round, hr, hall, hn]
    · simp [update_next_round, hr, hall]

theorem record_tournament_winner_ss (g : GState) :
    (record_tournament_winner g).bracket_data = g.bracket_data ∧
    (record_tournament_winner g).current_round = g.current_round ∧
    (record_tournament_winner g).current_match = g.current_match ∧
    (record_tournament_winner g).status = g.status ∧
    (record_tournament_winner g).match_records = g.match_records ∧
    (record_tournament_winner g).votes = g.votes := by
  cases hr : roundSlots g.bracket_data g.current_round with
  | none => simp [record_tournament_winner, hr]
  | some fm =>
    cases fm with
    | nil => simp [record_tournament_winner, hr]
    | cons first rest =>
      cases hw : first.winner with
      | none => simp [record_tournament_winner, hr, hw]
      | some w =>
        cases hf : dbFind g.db w.id with
        | none => simp [record_tournament_winner, hr, hw, hf]
        | some s => simp [record_tournament_winner, hr, hw, hf]

theorem advance_cases (g : GState) :
    (roundSlots g.bracket_data g.current_round = none ∧ advance_to_next_match g = g) ∨
    (∃ ms, roundSlots g.bracket_data g.current_round = some ms ∧
      ((g.current_match < ms.length ∧
          advance_to_next_match g = { g with current_match := g.current_match + 1 }) ∨
       (¬g.current_match < ms.length ∧
          (roundSlots g.bracket_data (g.current_round + 1)).isSome = true ∧
          advance_to_next_match g =
            { g with current_round := g.current_round + 1, current_match := 1 }) ∨
       (¬g.current_match < ms.length ∧
          (roundSlots g.bracket_data (g.current_round + 1)).isSome = false ∧
          advance_to_next_match g =
            record_tournament_winner { g with status := SessionStatus.COMPLETED }))) := by
  cases hr : roundSlots g.bracket_data g.current_round with
  | none => exact Or.inl ⟨rfl, by simp [advance_to_next_match, hr]⟩
  | some ms =>
    right
    refine ⟨ms, rfl, ?_⟩
    by_cases hm : g.current_match < ms.length
    · exact Or.inl ⟨hm, by simp [advance_to_next_match, hr, hm]⟩
    · cases hn : (roundSlots g.bracket_data (g.current_round + 1)).isSome with
      | true =>
        refine Or.inr (Or.inl ⟨hm, rfl, ?_⟩)
        simp [advance_to_next_match, hr, hm, hn]
      | false =>
        refine Or.inr (Or.inr ⟨hm, rfl, ?_⟩)
        simp [advance_to_next_match, hr, hm, hn]

theorem write_vote_rows_ss (g : GState) (chosen : Song) (s1 s2 : Nat) :
    (write_vote_rows g chosen s1 s2).bracket_data = g.bracket_data ∧
    (write_vote_rows g chosen s1 s2).current_round = g.current_round ∧
    (write_vote_rows g chosen s1 s2).current_match = g.current_match ∧
    (write_vote_rows g chosen s1 s2).status = g.status :=
  ⟨rfl, rfl, rfl, rfl⟩

theorem gcmd_some (g : GState) (sl : Slot) (h : get_current_match_data g = some sl) :
    ∃ ms, roundSlots g.bracket_data g.current_round = some ms ∧
      g.current_match ≤ ms.length ∧ ms.get? (g.current_match - 1) = some sl := by
  unfold get_current_match_data at h
  by_cases hc : g.status = SessionStatus.COMPLETED
  · rw [if_pos hc] at h; cases h
  · rw [if_neg hc] at h
    by_cases hb : g.bracket_data = []
    · rw [if_pos hb] at h; cases h
    · rw [if_neg hb] at h
      cases hr : roundSlots g.bracket_data g.current_round with
      | none => rw [hr] at h; cases h
      | some ms =>
        simp only [hr] at h
        by_cases hm : g.current_match ≤ ms.length
        · rw [if_pos hm] at h
          exact ⟨ms, rfl, hm, h⟩
        · rw [if_neg hm] at h; cases h

theorem write_winner_of_some (g : GState) (chosen : Song) (ms : List Slot)
    (hms : roundSlots g.bracket_data g.current_round = some ms)
    (hle : g.current_match ≤ ms.length) :
    write_winner g chosen =
      (true, { g with bracket_data := (g.bracket_data.set (g.current_round - 1)
        (modifySlot ms (g.current_match - 1)
          (fun sl => { sl with winner := some (winner_dict chosen), completed := true }))) }) := by
  unfold write_winner
  simp only [hms]
  rw [if_pos hle]

theorem cast_vote_cases (g : GState) (c : Nat) :
    cast_vote g c = (false, g) ∨
    ∃ sl s1 s2 chosen,
      g.status = SessionStatus.ACTIVE ∧
      get_current_match_data g = some sl ∧
      entrant_id sl.song1 = some s1 ∧ entrant_id sl.song2 = some s2 ∧
      dbFind g.db c = some chosen ∧
      (dbFind g.db s1).isSome = true ∧ (dbFind g.db s2).isSome = true ∧
      (c = s1 ∨ c = s2) ∧
      g.match_records.any
        (fun m => m.round_number == g.current_round && m.match_number == g.current_match) = false ∧
      cast_vote g c = apply_vote g chosen s1 s2 := by
  by_cases hst : g.status = SessionStatus.ACTIVE
  · cases hmd : get_current_match_data g with
    | none =>
      left
      unfold cast_vote
      rw [if_neg (not_not_intro hst), hmd]
    | some sl =>
      cases h1 : entrant_id sl.song1 with
      | none =>
        left
        unfold cast_vote
        rw [if_neg (not_not_intro hst)]
        simp only [hmd, h1]
      | some s1 =>
        cases h2 : entrant_id sl.song2 with
        | none =>
          left
          unfold cast_vote
          rw [if_neg (not_not_intro hst)]
          simp only [hmd, h1, h2]
        | some s2 =>
          cases hc : dbFind g.db c with
          | none =>
            left
            unfold cast_vote
            rw [if_neg (not_not_intro hst)]
            simp only [hmd, h1, h2, hc]
          | some chosen =>
            cases hf1 : dbFind g.db s1 with
            | none =>
              left
              unfold cast_vote
              rw [if_neg (not_not_intro hst)]
              simp only [hmd, h1, h2, hc, hf1]
            | some w1 =>
              cases hf2 : dbFind g.db s2 with
              | none =>
                left
                unfold cast_vote
                rw [if_neg (not_not_intro hst)]
                simp only [hmd, h1, h2, hc, hf1, hf2]
              | some w2 =>
                by_cases hval : c ≠ s1 ∧ c ≠ s2
                · left
                  unfold cast_vote
                  rw [if_neg (not_not_intro hst)]
                  simp only [hmd, h1, h2, hc, hf1, hf2]
                  rw [if_pos hval]
                · cases hdup : g.match_records.any
                    (fun m => m.round_number == g.current_round
                      && m.match_number == g.current_match) with
                  | true =>
                    left
                    unfold cast_vote
                    rw [if_neg (not_not_intro hst)]
                    simp only [hmd, h1, h2, hc, hf1, hf2]
                    rw [if_neg hval, if_pos hdup]
                  | false =>
                    right
                    refine ⟨sl, s1, s2, chosen, hst, rfl, h1, h2, rfl,
                      by rw [hf1]; rfl, by rw [hf2]; rfl, by tauto, rfl, ?_⟩
                    unfold cast_vote
                    rw [if_neg (not_not_intro hst)]
                    simp only [hmd, h1, h2, hc, hf1, hf2]
                    rw [if_neg hval, if_neg (by rw [hdup]; simp)]
  · left
    unfold cast_vote
    rw [if_pos hst]

theorem cast_vote_success_decomp (g : GState) (c : Nat) :
    cast_vote g c = (false, g) ∨
    ∃ sl ms s1 s2 chosen,
      g.status = SessionStatus.ACTIVE ∧
      roundSlots g.bracket_data g.current_round = some ms ∧
      g.current_match ≤ ms.length ∧
      ms.get? (g.current_match - 1) = some sl ∧
      entrant_id sl.song1 = some s1 ∧ entrant_id sl.song2 = some s2 ∧
      dbFind g.db c = some chosen ∧
      (c = s1 ∨ c = s2) ∧
      g.match_records.any
        (fun m => m.round_number == g.current_round && m.match_number == g.current_match) = false ∧
      cast_vote g c =
        (true, advance_to_next_match (update_next_round (vote_written g chosen s1 s2 ms))) := by
  rcases cast_vote_cases g c with hfail | ⟨sl, s1, s2, chosen, hst, hmd, h1, h2, hc, _, _, hch, hdup, heq⟩
  · exact Or.inl hfail
  · right
    obtain ⟨ms, hms, hle, hget⟩ := gcmd_some g sl hmd
    refine ⟨sl, ms, s1, s2, chosen, hst, hms, hle, hget, h1, h2, hc, hch, hdup, ?_⟩
    rw [heq]
    have hms1 : roundSlots (write_vote_rows g chosen s1 s2).bracket_data
        (write_vote_rows g chosen s1 s2).current_round = some ms := hms
    have hle1 : (write_vote_rows g chosen s1 s2).current_match ≤ ms.length := hle
    simp only [apply_vote]
    rw [write_winner_of_some (write_vote_rows g chosen s1 s2) chosen ms hms1 hle1]
    simp only [vote_written]
    rfl

theorem record_db (g : GState) :
    (record_tournament_winner g).db = g.db ∨
    ∃ w, (record_tournament_winner g).db =
      updateSong g.db w (fun s => { s with tournament_wins := s.tournament_wins + 1 }) := by
  cases hr : roundSlots g.bracket_data g.current_round with
  | none => left; simp [record_tournament_winner, hr]
  | some fm =>
    cases fm with
    | nil => left; simp [record_tournament_winner, hr]
    | cons first rest =>
      cases hw : first.winner with
      | none => left; simp [record_tournament_winner, hr, hw]
      | some w =>
        cases hf : dbFind g.db w.id with
        | none => left; simp [record_tournament_winner, hr, hw, hf]
        | some s => right; exact ⟨w.id, by simp [record_tournament_winner, hr, hw, hf]⟩

theorem advance_db (g : GState) :
    (advance_to_next_match g).db = g.db ∨
    ∃ w, (advance_to_next_match g).db =
      updateSong g.db w (fun s => { s with tournament_wins := s.tournament_wins + 1 }) := by
  rcases advance_cases g with ⟨_, heq⟩ | ⟨ms, hms, hcase⟩
  · rw [heq]; left; rfl
  · rcases hcase with ⟨_, heq⟩ | ⟨_, _, heq⟩ | ⟨_, _, heq⟩
    · rw [heq]; left; rfl
    · rw [heq]; left; rfl
    · rw [heq]
      exact record_db { g with status := SessionStatus.COMPLETED }

/-- C1: every committed `cast_vote` (and every failing call, which changes
nothing) preserves the identity `total_wins + total_losses = total_picks`
for every song row: the chosen song gains a win and a pick, the loser a
loss and a pick, and in a self-match both land on the one shared row. -/
theorem c1_wins_losses_picks (g : GState) (c : Nat)
    (h : ∀ s ∈ g.db, s.total_wins + s.total_losses = s.total_picks) :
    ∀ s ∈ (cast_vote g c).2.db, s.total_wins + s.total_losses = s.total_picks := by
  rcases cast_vote_success_decomp g c with hfail |
    ⟨sl, ms, s1, s2, chosen, hst, hms, hle, hget, h1, h2, hc, hch, hdup, heq⟩
  · rw [hfail]; exact h
  · rw [heq]
    have hvw : ∀ s ∈ (vote_written g chosen s1 s2 ms).db,
        s.total_wins + s.total_losses = s.total_picks := by
      show ∀ s ∈ updateSong (updateSong g.db chosen.id
          (fun s => { s with total_wins := s.total_wins + 1, total_picks := s.total_picks + 1 }))
          (if chosen.id = s1 then s2 else s1)
          (fun s => { s with total_losses := s.total_losses + 1, total_picks := s.total_picks + 1 }),
        s.total_wins + s.total_losses = s.total_picks
      refine updateSong_pred _ _ _ _ (updateSong_pred _ _ _ _ h ?_) ?_
      · intro s hs
        show s.total_wins + 1 + s.total_losses = s.total_picks + 1
        omega
      · intro s hs
        show s.total_wins + (s.total_losses + 1) = s.total_picks + 1
        omega
    have hupd := (update_next_round_ss (vote_written g chosen s1 s2 ms)).1
    rcases advance_db (update_next_round (vote_written g chosen s1 s2 ms)) with hadv | ⟨w, hadv⟩
    · show ∀ s ∈ (advance_to_next_match (update_next_round (vote_written g chosen s1 s2 ms))).db, _
      rw [hadv, hupd]
      exact hvw
    · show ∀ s ∈ (advance_to_next_match (update_next_round (vote_written g chosen s1 s2 ms))).db, _
      rw [hadv, hupd]
      exact updateSong_pred _ _ _ _ hvw (fun s hs => hs)

theorem c1_wins_losses_picks_witness :
    (∀ s ∈ (demo_session 2).db, s.total_wins + s.total_losses = s.total_picks) ∧
    (∀ s ∈ (cast_vote (demo_session 2) 1).2.db,
      s.total_wins + s.total_losses = s.total_picks) :=
  ⟨by decide, c1_wins_losses_picks (demo_session 2) 1 (by decide)⟩

/-- C2: if a `Match` row already exists for the session's current
`(current_round, current_match)`, `cast_vote` fails and returns the state
unchanged: no new `Match` or `Vote` row, no counter change, no change to
bracket, cursor or status. -/
theorem c2_duplicate_vote (g : GState) (c : Nat)
    (hdup : ∃ m ∈ g.match_records,
      m.round_number = g.current_round ∧ m.match_number = g.current_match) :
    cast_vote g c = (false, g) := by
  rcases cast_vote_cases g c with h | ⟨sl, s1, s2, chosen, _, _, _, _, _, _, _, _, hany, _⟩
  · exact h
  · exfalso
    obtain ⟨m, hm, hr, hmn⟩ := hdup
    have htrue : g.match_records.any
        (fun m => m.round_number == g.current_round && m.match_number == g.current_match)
        = true := by
      rw [List.any_eq_true]
      exact ⟨m, hm, by simp [hr, hmn]⟩
    rw [htrue] at hany
    cases hany

theorem c2_duplicate_vote_witness :
    (∃ m ∈ demo_dup.match_records,
      m.round_number = demo_dup.current_round ∧ m.match_number = demo_dup.current_match) ∧
    cast_vote demo_dup 1 = (false, demo_dup) :=
  ⟨by decide, c2_duplicate_vote demo_dup 1 (by decide)⟩

/-- C10: when the current slot's two sides carry the same song id (the
self-match the duplication policy produces for a 1-song or odd-size pool),
a successful `cast_vote` nets that single row `total_picks + 2`,
`total_wins + 1` and `total_losses + 1`: the chosen-side and loser-side
updates hit the one shared object, so neither is lost. -/
theorem c10_self_match (g : GState) (c a : Nat) (sl : Slot)
    (hmd : get_current_match_data g = some sl)
    (hid1 : entrant_id sl.song1 = some a) (hid2 : entrant_id sl.song2 = some a)
    (hsucc : (cast_vote g c).1 = true) :
    ∃ s s', dbFind g.db a = some s ∧ dbFind (cast_vote g c).2.db a = some s' ∧
      s'.total_picks = s.total_picks + 2 ∧ s'.total_wins = s.total_wins + 1 ∧
      s'.total_losses = s.total_losses + 1 := by
  rcases cast_vote_success_decomp g c with hfail |
    ⟨sl0, ms, s1, s2, chosen, hst, hms, hle, hget, h1, h2, hc, hch, hdup, heq⟩
  · rw [hfail] at hsucc; cases hsucc
  · obtain ⟨ms2, hms2, hle2, hget2⟩ := gcmd_some g sl hmd
    rw [hms] at hms2
    cases hms2
    rw [hget] at hget2
    cases hget2
    rw [hid1] at h1
    cases h1
    rw [hid2] at h2
    cases h2
    have hca : c = a := by rcases hch with h | h <;> exact h
    subst hca
    have hchid : chosen.id = c := dbFind_id g.db c chosen hc
    have hfw : ∀ s : Song,
        (({ s with total_wins := s.total_wins + 1, total_picks := s.total_picks + 1 } : Song)).id
          = s.id := fun _ => rfl
    have hfl : ∀ s : Song,
        (({ s with total_losses := s.total_losses + 1, total_picks := s.total_picks + 1 } : Song)).id
          = s.id := fun _ => rfl
    have htw : ∀ s : Song,
        (({ s with tournament_wins := s.tournament_wins + 1 } : Song)).id = s.id := fun _ => rfl
    have hdb2 : dbFind (vote_written g chosen c c ms).db c =
        some { chosen with total_wins := chosen.total_wins + 1, total_losses := chosen.total_losses + 1, total_picks := chosen.total_picks + 1 + 1 } := by
      show dbFind (updateSong (updateSong g.db chosen.id
          (fun s => { s with total_wins := s.total_wins + 1, total_picks := s.total_picks + 1 }))
          (if chosen.id = c then c else c)
          (fun s => { s with total_losses := s.total_losses + 1, total_picks := s.total_picks + 1 })) c = _
      rw [show (if chosen.id = c then c else c) = c by simp, hchid]
      rw [dbFind_updateSong_eq _ c _ hfl, dbFind_updateSong_eq _ c _ hfw, hc]
      simp only [Option.map_some', hchid]
    have hfinaldb : ∃ s', dbFind (cast_vote g c).2.db c = some s' ∧
        s'.total_picks = chosen.total_picks + 2 ∧ s'.total_wins = chosen.total_wins + 1 ∧
        s'.total_losses = chosen.total_losses + 1 := by
      rw [heq]
      show ∃ s', dbFind
        (advance_to_next_match (update_next_round (vote_written g chosen c c ms))).db c
        = some s' ∧ _
      have hXdb : (update_next_round (vote_written g chosen c c ms)).db
          = (vote_written g chosen c c ms).db := (update_next_round_ss _).1
      rcases advance_db (update_next_round (vote_written g chosen c c ms)) with hadv | ⟨w, hadv⟩
      · rw [hadv, hXdb, hdb2]
        exact ⟨_, rfl, rfl, rfl, rfl⟩
      · rw [hadv, hXdb]
        rw [dbFind_updateSong _ w c _ htw, hdb2]
        rcases Bool.eq_false_or_eq_true
          (({ chosen with total_wins := chosen.total_wins + 1, total_losses := chosen.total_losses + 1, total_picks := chosen.total_picks + 1 + 1 } : Song).id == w) with hb | hb
        · rw [Option.map_some', hb]
          exact ⟨_, rfl, rfl, rfl, rfl⟩
        · rw [Option.map_some', hb]
          exact ⟨_, rfl, rfl, rfl, rfl⟩
    obtain ⟨s', hs1, hs2, hs3, hs4⟩ := hfinaldb
    exact ⟨chosen, s', hc, hs1, hs2, hs3, hs4⟩

theorem c10_self_match_witness :
    get_current_match_data demo_self = some demo_self_slot ∧
    (cast_vote demo_self 1).1 = true ∧
    ∃ s s', dbFind demo_self.db 1 = some s ∧ dbFind (cast_vote demo_self 1).2.db 1 = some s' ∧
      s'.total_picks = s.total_picks + 2 ∧ s'.total_wins = s.total_wins + 1 ∧
      s'.total_losses = s.total_losses + 1 :=
  ⟨by decide, by decide,
    c10_self_match demo_self 1 1 demo_self_slot (by decide) (by decide) (by decide) (by decide)⟩

theorem generate_some_not_needsMore (songs : List Song) (br : BracketData)
    (h : generate_bracket_structure songs = some br) :
    needsMore 10 songs.length = false := by
  cases hx : needsMore 10 songs.length
  · rfl
  · exfalso
    have he : ¬songs.isEmpty := by
      intro hh
      unfold generate_bracket_structure at h
      rw [if_pos hh] at h
      cases h
    have hnone : generate_bracket_structure songs = none := by
      unfold generate_bracket_structure
      rw [if_neg he, genLoop_none, List.length_map]
      exact hx
    rw [hnone] at h
    cases h

theorem pairRound_snd_last : ∀ (cur : List Entrant) (k : Nat), cur.length % 2 = 1 →
    (pairRound cur k).2.getLast? = cur.getLast?
  | [], _ => by simp
  | [x], _ => by simp [pairRound]
  | x :: y :: rest, k => by
    intro hodd
    have hro : rest.length % 2 = 1 := by
      simp only [List.length_cons] at hodd
      omega
    have hrne : rest ≠ [] := by
      intro hh
      rw [hh] at hro
      simp at hro
    have ih := pairRound_snd_last rest (k + 1) hro
    have hsne : (pairRound rest (k + 1)).2 ≠ [] := by
      intro hh
      have := pairRound_snd_length rest (k + 1)
      rw [hh] at this
      simp at this
      cases rest with
      | nil => exact hrne rfl
      | cons a l => simp [List.length_cons] at this; omega
    show (Entrant.placeholderE k :: (pairRound rest (k + 1)).2).getLast? = _
    cases hps : (pairRound rest (k + 1)).2 with
    | nil => exact absurd hps hsne
    | cons a l =>
      rw [List.getLast?_cons_cons, ← hps, ih]
      cases rest with
      | nil => exact absurd rfl hrne
      | cons b l2 => rw [List.getLast?_cons_cons, List.getLast?_cons_cons]

/-- C4 counterexample: the claim predicts round sizes `[3, 2, 1]` for a
6-item pool (`slots(r) = ceil(slots(r-1)/2)`), but the generator carries
the odd leftover of round 2 forward instead of closing it with a bye, so
the built bracket has round sizes `[3, 1, 1]`. -/
theorem c4_round_sizes_counterexample :
    (generate_bracket_structure (mkSongs 6)).map (fun b => b.map (fun ms => ms.length))
      = some [3, 1, 1] ∧ ([3, 1, 1] : List Nat) ≠ [3, 2, 1] :=
  ⟨by decide, by decide⟩

/-- C4 amended: for `n ≥ 2` items the round sizes of a generated bracket
follow `sizeChain`: round `r` has `⌊c_r/2⌋` slots where `c_1 = n` and
`c_(r+1) = ⌈c_r/2⌉` (the paired winners plus any odd leftover carried
forward), and the final round always has exactly 1 slot.  The
`ceil(slots(r-1)/2)` law of the claim holds only when no odd count occurs
(e.g. powers of two); for `n = 6` the sizes are `[3, 1, 1]`, not
`[3, 2, 1]`. -/
theorem c4_round_sizes_amended (songs : List Song) (br : BracketData)
    (h2 : 2 ≤ songs.length)
    (hgen : generate_bracket_structure songs = some br) :
    br.map (fun ms => ms.length) = sizeChain 10 songs.length ∧
    ∃ l, br.map (fun ms => ms.length) = l ++ [1] := by
  refine ⟨generate_sizes songs br hgen, ?_⟩
  obtain ⟨l, hl⟩ := sizeChain_last 10 songs.length h2 (generate_some_not_needsMore songs br hgen)
  exact ⟨l, by rw [generate_sizes songs br hgen, hl]⟩

theorem c4_round_sizes_amended_witness :
    2 ≤ (mkSongs 6).length ∧
    generate_bracket_structure (mkSongs 6) = some ((generate_bracket_structure (mkSongs 6)).getD []) ∧
    (((generate_bracket_structure (mkSongs 6)).getD []).map (fun ms => ms.length)
        = sizeChain 10 (mkSongs 6).length ∧
      ∃ l, ((generate_bracket_structure (mkSongs 6)).getD []).map (fun ms => ms.length) = l ++ [1]) :=
  ⟨by decide, by decide,
    c4_round_sizes_amended (mkSongs 6) ((generate_bracket_structure (mkSongs 6)).getD [])
      (by decide) (by decide)⟩

/-- C6 counterexample: for a 3-item pool the claim predicts a round-1
auto-win slot (winner = the leftover item, `completed` set), i.e. 2 slots
in round 1.  The generator instead builds a single round-1 slot, and no
slot of the bracket has a winner or completed flag set at build time. -/
theorem c6_auto_win_counterexample :
    ((generate_bracket_structure (mkSongs 3)).getD []).map (fun ms => ms.length) = [1, 1] ∧
    (((generate_bracket_structure (mkSongs 3)).getD []).all
      (fun ms => ms.all (fun sl => !sl.completed && sl.winner == none))) = true ∧
    (generate_bracket_structure (mkSongs 3)).isSome = true :=
  ⟨by decide, by decide, by decide⟩

/-- C6 amended: with an odd item count the last unpaired item gets no slot
in the current round: the round holds only the `⌊n/2⌋` paired slots, all
of them fresh (no winner, not completed), and the leftover item is
appended to the next round's entrant list (it stays the last entrant of
that list), later becoming a side of a next-round slot. -/
theorem c6_odd_leftover_amended (songs : List Song) (br : BracketData)
    (hodd : songs.length % 2 = 1) (h3 : 3 ≤ songs.length)
    (hgen : generate_bracket_structure songs = some br) :
    (∃ ms1 rest, br = ms1 :: rest ∧ ms1.length = songs.length / 2 ∧
      ∀ sl ∈ ms1, sl.completed = false ∧ sl.winner = none) ∧
    (pairRound (songs.map (fun s => Entrant.songE (song_to_data s))) 1).2.getLast?
      = (songs.map (fun s => Entrant.songE (song_to_data s))).getLast? := by
  constructor
  · have hs := generate_sizes songs br hgen
    rw [sizeChain, if_pos (by omega : 1 < songs.length)] at hs
    cases br with
    | nil => simp at hs
    | cons ms1 rest =>
      refine ⟨ms1, rest, rfl, ?_, ?_⟩
      · have := List.head?_eq_head (l := (ms1 :: rest).map (fun ms => ms.length))
        simp only [List.map_cons] at hs
        exact (List.cons.injEq _ _ _ _).mp hs |>.1
      · intro sl hsl
        have hfr := generate_fresh songs (ms1 :: rest) hgen ms1 (by simp)
        exact hfr.2 sl hsl
  · exact pairRound_snd_last _ 1 (by rw [List.length_map]; exact hodd)

theorem c6_odd_leftover_amended_witness :
    (mkSongs 3).length % 2 = 1 ∧ 3 ≤ (mkSongs 3).length ∧
    generate_bracket_structure (mkSongs 3) = some ((generate_bracket_structure (mkSongs 3)).getD []) ∧
    ((∃ ms1 rest, (generate_bracket_structure (mkSongs 3)).getD [] = ms1 :: rest ∧
        ms1.length = (mkSongs 3).length / 2 ∧
        ∀ sl ∈ ms1, sl.completed = false ∧ sl.winner = none) ∧
      (pairRound ((mkSongs 3).map (fun s => Entrant.songE (song_to_data s))) 1).2.getLast?
        = ((mkSongs 3).map (fun s => Entrant.songE (song_to_data s))).getLast?) :=
  ⟨by decide, by decide, by decide,
    c6_odd_leftover_amended (mkSongs 3) ((generate_bracket_structure (mkSongs 3)).getD [])
      (by decide) (by decide) (by decide)⟩

set_option maxRecDepth 8192 in
/-- C8 counterexample: a 513-item list needs 10 rounds (within the claim's
"at most 10 rounds / at most 1024 items" limit), yet
`generate_bracket_structure` returns `None`: the post-loop check
`round_num > max_rounds` fires at `round_num = 11` even though the
10-round bracket was fully built. -/
theorem c8_depth_counterexample :
    (mkSongs 513).length ≤ 1024 ∧ generate_bracket_structure (mkSongs 513) = none :=
  ⟨by decide, by decide⟩

/-- C8 amended: `generate_bracket_structure` returns `None` exactly for an
empty pool or a pool of 513 or more items — that is, whenever the bracket
would need 10 or more rounds, not "more than 10"; every pool of 1 to 512
items yields a bracket.  Pools of 513 to 1024 items are rejected even
though their 10-round bracket fits the `max_rounds = 10` limit. -/
theorem c8_depth_bound_amended (songs : List Song) :
    (generate_bracket_structure songs = none ↔ songs = [] ∨ 513 ≤ songs.length) ∧
    (songs ≠ [] → songs.length ≤ 512 → (generate_bracket_structure songs).isSome = true) := by
  refine ⟨generate_none_iff songs, ?_⟩
  intro h1 h2
  cases hx : generate_bracket_structure songs with
  | some b => rfl
  | none =>
    rcases (generate_none_iff songs).mp hx with h | h
    · exact absurd h h1
    · omega

theorem c8_depth_bound_amended_witness :
    (generate_bracket_structure (mkSongs 4)).isSome = true :=
  (c8_depth_bound_amended (mkSongs 4)).2 (by decide) (by decide)

theorem list_set_self {α : Type} : ∀ (l : List α) (k : Nat) (a : α),
    l.get? k = some a → l.set k a = l
  | [], _, _ => by simp
  | x :: rest, 0, a => by
    intro h
    simp only [List.get?_cons_zero, Option.some_inj] at h
    rw [List.set_cons_zero, h]
  | x :: rest, k + 1, a => by
    intro h
    simp only [List.get?_cons_succ] at h
    rw [List.set_cons_succ, list_set_self rest k a h]

theorem map_length_set (b : BracketData) (k : Nat) (msNew msOld : List Slot)
    (hk : b.get? k = some msOld) (hlen : msNew.length = msOld.length) :
    (b.set k msNew).map (fun ms => ms.length) = b.map (fun ms => ms.length) := by
  rw [List.map_set]
  apply list_set_self
  rw [List.get?_map, hk, hlen]
  rfl

theorem shape_nonempty_of_map_eq (b b' : BracketData)
    (h : b'.map (fun ms => ms.length) = b.map (fun ms => ms.length))
    (hb : ∀ ms ∈ b, ms ≠ []) : ∀ ms ∈ b', ms ≠ [] := by
  intro ms hms
  obtain ⟨i, hi⟩ := List.mem_iff_get?.mp hms
  have h1 : (b'.map (fun ms => ms.length)).get? i = some ms.length := by
    rw [List.get?_map, hi]
    rfl
  rw [h, List.get?_map] at h1
  cases hbi : b.get? i with
  | none => rw [hbi] at h1; cases h1
  | some msOld =>
    rw [hbi] at h1
    have hlen : msOld.length = ms.length := by simpa using h1
    have := hb msOld (List.get?_mem hbi)
    intro hnil
    rw [hnil] at hlen
    simp at hlen
    cases msOld with
    | nil => exact this rfl
    | cons a l => simp at hlen

theorem shape_last_of_map_eq (b b' : BracketData)
    (h : b'.map (fun ms => ms.length) = b.map (fun ms => ms.length))
    (hb : ∀ ms, b.getLast? = some ms → ms.length = 1) :
    ∀ ms, b'.getLast? = some ms → ms.length = 1 := by
  intro ms hms
  have h1 : (b'.map (fun ms => ms.length)).getLast? = some ms.length := by
    rw [List.getLast?_map, hms]
    rfl
  rw [h, List.getLast?_map] at h1
  cases hbl : b.getLast? with
  | none => rw [hbl] at h1; cases h1
  | some msOld =>
    rw [hbl] at h1
    have : msOld.length = ms.length := by simpa using h1
    rw [← this]
    exact hb msOld hbl

theorem shape_length_of_map_eq (b b' : BracketData)
    (h : b'.map (fun ms => ms.length) = b.map (fun ms => ms.length)) :
    b'.length = b.length := by
  have := congrArg List.length h
  simpa using this

theorem slotAt_set (b : BracketData) (k : Nat) (msNew : List Slot) (i j : Nat) :
    slotAt (b.set k msNew) i j =
      if i = k ∧ k < b.length then msNew.get? j else slotAt b i j := by
  unfold slotAt
  rw [list_set_get? b k msNew i]
  by_cases h : i = k ∧ k < b.length
  · rw [if_pos h, if_pos h]
  · rw [if_neg h, if_neg h]

theorem roundSlots_set (b : BracketData) (k : Nat) (msNew : List Slot) (r : Nat) :
    roundSlots (b.set k msNew) r =
      if r = k + 1 ∧ k < b.length then some msNew else roundSlots b r := by
  unfold roundSlots
  rw [List.length_set, list_set_get? b k msNew (r - 1)]
  by_cases hoo : 1 ≤ r ∧ r ≤ b.length
  · rw [if_pos hoo]
    by_cases hin : r - 1 = k ∧ k < b.length
    · rw [if_pos hin, if_pos (by omega)]
    · rw [if_neg hin, if_neg (by omega), if_pos hoo]
  · rw [if_neg hoo, if_neg (by omega), if_neg hoo]

theorem slotAt_roundSlots (b : BracketData) (r j : Nat) (ms : List Slot)
    (hr : roundSlots b r = some ms) (h1 : 1 ≤ r) :
    slotAt b (r - 1) j = ms.get? j := by
  unfold roundSlots at hr
  by_cases hc : 1 ≤ r ∧ r ≤ b.length
  · rw [if_pos hc] at hr
    unfold slotAt
    rw [hr]
  · rw [if_neg hc] at hr
    cases hr

theorem roundSlots_get? (b : BracketData) (r : Nat) (ms : List Slot)
    (hr : roundSlots b r = some ms) : b.get? (r - 1) = some ms := by
  unfold roundSlots at hr
  by_cases hc : 1 ≤ r ∧ r ≤ b.length
  · rw [if_pos hc] at hr; exact hr
  · rw [if_neg hc] at hr; cases hr

theorem roundSlots_bounds (b : BracketData) (r : Nat) (ms : List Slot)
    (hr : roundSlots b r = some ms) : 1 ≤ r ∧ r ≤ b.length := by
  unfold roundSlots at hr
  by_cases hc : 1 ≤ r ∧ r ≤ b.length
  · exact hc
  · rw [if_neg hc] at hr; cases hr

theorem roundSlots_of_get? (b : BracketData) (r : Nat) (h1 : 1 ≤ r) (h2 : r ≤ b.length) :
    roundSlots b r = b.get? (r - 1) := by
  unfold roundSlots
  rw [if_pos ⟨h1, h2⟩]

theorem sessionInv_init (db selected : List Song) (br : BracketData)
    (h2 : 2 ≤ selected.length) (h128 : selected.length ≤ 128)
    (hgen : generate_bracket_structure selected = some br) (hne : br ≠ []) :
    SessionInv (init_session db br) := by
  have hfr := generate_fresh selected br hgen
  refine ⟨?_, ?_, ?_, ?_, ?_⟩
  · intro ms hms
    exact (hfr ms hms).1
  · intro ms hms
    exact generate_last selected br hgen h2 ms hms
  · exact generate_depth selected br hgen h128
  · intro i j sl hsl
    unfold slotAt at hsl
    simp only [init_session] at hsl
    cases hbi : br.get? i with
    | none => rw [hbi] at hsl; cases hsl
    | some ms =>
      rw [hbi] at hsl
      have := (hfr ms (List.get?_mem hbi)).2 sl (List.get?_mem hsl)
      rw [this.1, this.2]
      simp
  · intro _
    refine ⟨le_refl 1, ?_, le_refl 1, ?_, ?_⟩
    · show 1 ≤ br.length
      cases br with
      | nil => exact absurd rfl hne
      | cons a l => simp
    · intro ms hms
      show 1 ≤ ms.length
      have hmem := List.get?_mem hms
      have := (hfr ms hmem).1
      cases ms with
      | nil => exact absurd rfl this
      | cons a l => simp
    · intro i j sl hsl
      unfold slotAt at hsl
      simp only [init_session] at hsl
      simp only [init_session]
      cases hbi : br.get? i with
      | none => rw [hbi] at hsl; cases hsl
      | some ms =>
        rw [hbi] at hsl
        have := (hfr ms (List.get?_mem hbi)).2 sl (List.get?_mem hsl)
        rw [this.1]
        constructor
        · intro hf; exact absurd hf (by simp)
        · intro hor
          rcases hor with h | ⟨_, h⟩ <;> omega

theorem sessionInv_preserved (g : GState) (hInv : SessionInv g) (c : Nat) :
    SessionInv (cast_vote g c).2 := by
  rcases cast_vote_success_decomp g c with hfail |
    ⟨sl, ms, s1, s2, chosen, hst, hms, hle, hget, h1, h2, hc, hch, hdup, heq⟩
  · rw [hfail]; exact hInv
  · rw [heq]
    obtain ⟨hrne, hlast, hdep, hwc, hact⟩ := hInv
    obtain ⟨hrlo, hrhi, hmlo, hmhi, hpat⟩ := hact hst
    set b := g.bracket_data with hbdef
    set r := g.current_round with hrdef
    set m := g.current_match with hmdef
    set mark := (fun sl => { sl with winner := some (winner_dict chosen), completed := true } : Slot → Slot) with hmarkdef
    set ms2 := modifySlot ms (m - 1) mark with hms2def
    set g2 := vote_written g chosen s1 s2 ms with hg2def
    have hb2 : g2.bracket_data = b.set (r - 1) ms2 := rfl
    have hr2 : g2.current_round = r := rfl
    have hm2 : g2.current_match = m := rfl
    have hst2 : g2.status = SessionStatus.ACTIVE := hst
    have hr1 : r - 1 < b.length := by omega
    have hms_get : b.get? (r - 1) = some ms := roundSlots_get? b r ms hms
    have hms2len : ms2.length = ms.length := modifySlot_length ms (m - 1) mark
    have hlens2 : (b.set (r - 1) ms2).map (fun ms => ms.length) = b.map (fun ms => ms.length) :=
      map_length_set b (r - 1) ms2 ms hms_get hms2len
    have hslot2 : ∀ i j, slotAt (b.set (r - 1) ms2) i j =
        if i = r - 1 then ms2.get? j else slotAt b i j := by
      intro i j
      rw [slotAt_set]
      by_cases h : i = r - 1
      · rw [if_pos ⟨h, hr1⟩, if_pos h]
      · rw [if_neg (by tauto), if_neg h]
    have hms2get : ∀ j, ms2.get? j =
        if j = m - 1 then (ms.get? (m - 1)).map mark else ms.get? j :=
      fun j => modifySlot_get? ms (m - 1) mark j
    have hroundS2 : ∀ r', roundSlots (b.set (r - 1) ms2) r' =
        if r' = r then some ms2 else roundSlots b r' := by
      intro r'
      rw [roundSlots_set]
      by_cases h : r' = r
      · rw [if_pos ⟨by omega, hr1⟩, if_pos h]
      · rw [if_neg (by omega), if_neg h]
    have hpat2 : ∀ i j sl', slotAt (b.set (r - 1) ms2) i j = some sl' →
        (sl'.completed = true ↔ (i + 1 < r ∨ (i + 1 = r ∧ j + 1 ≤ m))) := by
      intro i j sl' hsl'
      rw [hslot2] at hsl'
      by_cases hi : i = r - 1
      · rw [if_pos hi, hms2get] at hsl'
        by_cases hj : j = m - 1
        · rw [if_pos hj, hget] at hsl'
          simp only [Option.map_some', Option.some_inj] at hsl'
          rw [← hsl']
          show true = true ↔ _
          constructor
          · intro _
            right
            exact ⟨by omega, by omega⟩
          · intro _
            rfl
        · rw [if_neg hj] at hsl'
          have hold := hpat i j sl' (by unfold slotAt; rw [hi, hms_get]; exact hsl')
          rw [hold]
          omega
      · rw [if_neg hi] at hsl'
        have hold := hpat i j sl' hsl'
        rw [hold]
        omega
    have hwc2 : ∀ i j sl', slotAt (b.set (r - 1) ms2) i j = some sl' →
        (sl'.completed = true ↔ sl'.winner.isSome = true) := by
      intro i j sl' hsl'
      rw [hslot2] at hsl'
      by_cases hi : i = r - 1
      · rw [if_pos hi, hms2get] at hsl'
        by_cases hj : j = m - 1
        · rw [if_pos hj, hget] at hsl'
          simp only [Option.map_some', Option.some_inj] at hsl'
          rw [← hsl']
          simp
        · rw [if_neg hj] at hsl'
          exact hwc i j sl' (by unfold slotAt; rw [hi, hms_get]; exact hsl')
      · rw [if_neg hi] at hsl'
        exact hwc i j sl' hsl'
    have hallc : (ms2.all (fun x => x.completed)) = true ↔ ms.length ≤ m := by
      rw [List.all_eq_true]
      constructor
      · intro hall
        by_contra hlt
        push_neg at hlt
        cases hx : ms.get? m with
        | none =>
          rw [List.get?_eq_none] at hx
          omega
        | some slm =>
          have hin2 : ms2.get? m = some slm := by
            rw [hms2get, if_neg (by omega), hx]
          have hcp := hall slm (List.get?_mem hin2)
          have hp := hpat2 (r - 1) m slm (by rw [hslot2, if_pos rfl]; exact hin2)
          rw [hcp] at hp
          have := hp.mp rfl
          omega
      · intro hlen sl' hmem
        obtain ⟨j, hj⟩ := List.mem_iff_get?.mp hmem
        have hjlt : j < ms2.length := by
          by_contra hh
          rw [List.get?_eq_none.mpr (by omega)] at hj
          cases hj
        have hp := hpat2 (r - 1) j sl' (by rw [hslot2, if_pos rfl]; exact hj)
        rw [hp]
        right
        exact ⟨by omega, by omega⟩
    have hrs2r : roundSlots g2.bracket_data g2.current_round = some ms2 := by
      rw [hb2, hr2, hroundS2, if_pos rfl]
    by_cases hcase : m < ms.length
    · have hallf : ms2.all (fun x => x.completed) = false := by
        cases hx : ms2.all (fun x => x.completed)
        · rfl
        · exfalso; have := hallc.mp hx; omega
      have hg3 : update_next_round g2 = g2 := by
        unfold update_next_round
        simp only [hrs2r, hallf]
        simp
      rw [hg3]
      have hadv : advance_to_next_match g2 = { g2 with current_match := g2.current_match + 1 } := by
        unfold advance_to_next_match
        simp only [hrs2r]
        rw [if_pos (show g2.current_match < ms2.length by rw [hm2, hms2len]; exact hcase)]
      rw [hadv]
      have hb4 : ({ g2 with current_match := g2.current_match + 1 }).bracket_data
          = b.set (r - 1) ms2 := hb2
      refine ⟨?_, ?_, ?_, ?_, ?_⟩
      · show ∀ msx ∈ ({ g2 with current_match := g2.current_match + 1 }).bracket_data, msx ≠ []
        rw [hb4]
        exact shape_nonempty_of_map_eq b _ hlens2 hrne
      · show ∀ msx, ({ g2 with current_match := g2.current_match + 1 }).bracket_data.getLast?
            = some msx → msx.length = 1
        rw [hb4]
        exact shape_last_of_map_eq b _ hlens2 hlast
      · show ({ g2 with current_match := g2.current_match + 1 }).bracket_data.length ≤ 7
        rw [hb4, shape_length_of_map_eq b _ hlens2]
        exact hdep
      · intro i j sl' hsl'
        rw [hb4] at hsl'
        exact hwc2 i j sl' hsl'
      · intro _
        refine ⟨hrlo, ?_, ?_, ?_, ?_⟩
        · show r ≤ (b.set (r - 1) ms2).length
          rw [List.length_set]
          exact hrhi
        · show 1 ≤ m + 1
          omega
        · show ∀ msx, (b.set (r - 1) ms2).get? (r - 1) = some msx → m + 1 ≤ msx.length
          intro msx hmsx
          rw [list_set_get?, if_pos ⟨rfl, hr1⟩] at hmsx
          cases hmsx
          rw [hms2len]
          omega
        · intro i j sl' hsl'
          rw [hb4] at hsl'
          rw [hpat2 i j sl' hsl']
          show _ ↔ i + 1 < r ∨ (i + 1 = r ∧ j + 1 < m + 1)
          omega
    · have hmlen : m = ms.length := by omega
      have hallt : ms2.all (fun x => x.completed) = true := hallc.mpr (by omega)
      by_cases hnext : r + 1 ≤ b.length
      · cases hnxt : b.get? r with
        | none =>
          exfalso
          rw [List.get?_eq_none] at hnxt
          omega
        | some nxt =>
          have hrsn : roundSlots g2.bracket_data (g2.current_round + 1) = some nxt := by
            rw [hb2, hr2, hroundS2, if_neg (by omega)]
            rw [roundSlots_of_get? b (r + 1) (by omega) hnext]
            exact hnxt
          set winners := ms2.filterMap (fun x => x.winner) with hwins
          set fp := fillPairs winners nxt 0 with hfpdef
          have hg3 : update_next_round g2 =
              { g2 with bracket_data := (b.set (r - 1) ms2).set r fp } := by
            unfold update_next_round
            simp only [hrs2r, hallt, hrsn]
            simp only [hb2, hr2]
            simp
          rw [hg3]
          have hsetnxt : (b.set (r - 1) ms2).get? r = some nxt := by
            rw [list_set_get?, if_neg (by omega)]
            exact hnxt
          have hfplen : fp.length = nxt.length := fillPairs_length winners nxt 0
          have hlen3 : ((b.set (r - 1) ms2).set r fp).map (fun ms => ms.length)
              = b.map (fun ms => ms.length) := by
            rw [map_length_set _ r fp nxt hsetnxt hfplen, hlens2]
          have hrlt : r < ((b.set (r - 1) ms2)).length := by
            rw [List.length_set]
            omega
          have e1 : roundSlots ((b.set (r - 1) ms2).set r fp) r = some ms2 := by
            rw [roundSlots_set, if_neg (by omega), hroundS2, if_pos rfl]
          have e2 : roundSlots ((b.set (r - 1) ms2).set r fp) (r + 1) = some fp := by
            rw [roundSlots_set, if_pos ⟨rfl, hrlt⟩]
          have hadv : advance_to_next_match { g2 with bracket_data := (b.set (r - 1) ms2).set r fp }
              = { g2 with bracket_data := (b.set (r - 1) ms2).set r fp, current_round := r + 1, current_match := 1 } := by
            unfold advance_to_next_match
            simp only [e1, hr2, hm2, e2]
            rw [if_neg (by omega : ¬ m < ms2.length)]
            simp
          rw [hadv]
          have hslot3 : ∀ i j, slotAt ((b.set (r - 1) ms2).set r fp) i j =
              if i = r then fp.get? j else slotAt (b.set (r - 1) ms2) i j := by
            intro i j
            rw [slotAt_set]
            by_cases h : i = r
            · rw [if_pos ⟨h, hrlt⟩, if_pos h]
            · rw [if_neg (by tauto), if_neg h]
          have hfpget : ∀ j, fp.get? j = (nxt.get? j).map (fillSlot winners j) := by
            intro j
            rw [hfpdef, fillPairs_get?, Nat.zero_add]
          refine ⟨?_, ?_, ?_, ?_, ?_⟩
          · show ∀ msx ∈ (b.set (r - 1) ms2).set r fp, msx ≠ []
            exact shape_nonempty_of_map_eq b _ hlen3 hrne
          · show ∀ msx, ((b.set (r - 1) ms2).set r fp).getLast? = some msx → msx.length = 1
            exact shape_last_of_map_eq b _ hlen3 hlast
          · show ((b.set (r - 1) ms2).set r fp).length ≤ 7
            rw [shape_length_of_map_eq b _ hlen3]
            exact hdep
          · intro i j sl' hsl'
            rw [hslot3] at hsl'
            by_cases hi : i = r
            · rw [if_pos hi, hfpget] at hsl'
              cases hno : nxt.get? j with
              | none => rw [hno] at hsl'; cases hsl'
              | some slo =>
                rw [hno, Option.map_some', Option.some_inj] at hsl'
                have hsk := fillSlot_skel winners j slo
                rw [← hsl', hsk.1, hsk.2.1]
                exact hwc r j slo (by unfold slotAt; rw [hnxt]; exact hno)
            · rw [if_neg hi] at hsl'
              exact hwc2 i j sl' hsl'
          · intro _
            refine ⟨?_, ?_, ?_, ?_, ?_⟩
            · show 1 ≤ r + 1
              omega
            · show r + 1 ≤ ((b.set (r - 1) ms2).set r fp).length
              rw [List.length_set, List.length_set]
              omega
            · show (1 : Nat) ≤ 1
              omega
            · show ∀ msx, ((b.set (r - 1) ms2).set r fp).get? (r + 1 - 1) = some msx
                → 1 ≤ msx.length
              intro msx hmsx
              have : ((b.set (r - 1) ms2).set r fp).get? r = some fp := by
                rw [list_set_get?, if_pos ⟨rfl, hrlt⟩]
              rw [show r + 1 - 1 = r by omega, this] at hmsx
              cases hmsx
              rw [hfplen]
              have hnne := hrne nxt (List.get?_mem hnxt)
              cases nxt with
              | nil => exact absurd rfl hnne
              | cons a l => simp
            · intro i j sl' hsl'
              rw [hslot3] at hsl'
              by_cases hi : i = r
              · rw [if_pos hi, hfpget] at hsl'
                cases hno : nxt.get? j with
                | none => rw [hno] at hsl'; cases hsl'
                | some slo =>
                  rw [hno, Option.map_some', Option.some_inj] at hsl'
                  have hsk := fillSlot_skel winners j slo
                  rw [← hsl', hsk.1]
                  rw [hpat r j slo (by unfold slotAt; rw [hnxt]; exact hno)]
                  show _ ↔ i + 1 < r + 1 ∨ (i + 1 = r + 1 ∧ j + 1 < 1)
                  omega
              · rw [if_neg hi] at hsl'
                by_cases hi2 : i = r - 1
                · have hj : ms2.get? j = some sl' := by
                    rw [hslot2, if_pos hi2] at hsl'
                    exact hsl'
                  have hjlt : j < ms2.length := by
                    by_contra hh
                    rw [List.get?_eq_none.mpr (by omega)] at hj
                    cases hj
                  rw [hpat2 i j sl' hsl']
                  show _ ↔ i + 1 < r + 1 ∨ (i + 1 = r + 1 ∧ j + 1 < 1)
                  omega
                · rw [hpat2 i j sl' hsl']
                  show _ ↔ i + 1 < r + 1 ∨ (i + 1 = r + 1 ∧ j + 1 < 1)
                  omega
      · have hrsn : roundSlots g2.bracket_data (g2.current_round + 1) = none := by
          rw [hb2, hr2, hroundS2, if_neg (by omega)]
          unfold roundSlots
          rw [if_neg (by omega)]
        have hg3 : update_next_round g2 = g2 := by
          unfold update_next_round
          simp only [hrs2r, hallt, hrsn]
          simp
        rw [hg3]
        have hadv : advance_to_next_match g2 =
            record_tournament_winner { g2 with status := SessionStatus.COMPLETED } := by
          unfold advance_to_next_match
          simp only [hrs2r, hrsn]
          rw [if_neg (show ¬g2.current_match < ms2.length by rw [hm2, hms2len]; omega)]
          simp
        rw [hadv]
        have hss := record_tournament_winner_ss { g2 with status := SessionStatus.COMPLETED }
        have hXb : ({ g2 with status := SessionStatus.COMPLETED }).bracket_data
            = b.set (r - 1) ms2 := hb2
        refine ⟨?_, ?_, ?_, ?_, ?_⟩
        · intro msx hmsx
          rw [hss.1, hXb] at hmsx
          exact shape_nonempty_of_map_eq b _ hlens2 hrne msx hmsx
        · intro msx hmsx
          rw [hss.1, hXb] at hmsx
          exact shape_last_of_map_eq b _ hlens2 hlast msx hmsx
        · rw [hss.1, hXb, shape_length_of_map_eq b _ hlens2]
          exact hdep
        · intro i j sl' hsl'
          rw [hss.1, hXb] at hsl'
          exact hwc2 i j sl' hsl'
        · intro hA
          rw [hss.2.2.2.1] at hA
          simp at hA

theorem reachable_inv (g : GState) (h : Reachable g) : SessionInv g := by
  induction h with
  | create db selected br h2 heven h128 hgen hne =>
    exact sessionInv_init db selected br h2 h128 hgen hne
  | vote g c hg ih => exact sessionInv_preserved g ih c

/-- C7: in every session reachable by `create_voting_session` followed by
any sequence of `cast_vote` calls, while the status is ACTIVE the cursor
`(current_round, current_match)` points at a slot that exists in
`bracket_data` (round key present, `current_match` within the round) and
is not completed; and once the status has left ACTIVE, `cast_vote` — the
only engine operation that moves the cursor — returns the state unchanged,
so the cursor is frozen. -/
theorem c7_active_cursor (g : GState) (hg : Reachable g) (c : Nat) :
    (g.status = SessionStatus.ACTIVE →
      ∃ ms slc, roundSlots g.bracket_data g.current_round = some ms ∧
        g.current_match ≤ ms.length ∧
        ms.get? (g.current_match - 1) = some slc ∧ slc.completed = false) ∧
    (g.status ≠ SessionStatus.ACTIVE → cast_vote g c = (false, g)) := by
  constructor
  · intro hst
    obtain ⟨hrne, hlast, hdep, hwc, hact⟩ := reachable_inv g hg
    obtain ⟨hrlo, hrhi, hmlo, hmhi, hpat⟩ := hact hst
    have hrs : roundSlots g.bracket_data g.current_round
        = g.bracket_data.get? (g.current_round - 1) :=
      roundSlots_of_get? _ _ hrlo hrhi
    cases hbg : g.bracket_data.get? (g.current_round - 1) with
    | none =>
      exfalso
      rw [List.get?_eq_none] at hbg
      omega
    | some ms =>
      have hmle := hmhi ms hbg
      cases hslc : ms.get? (g.current_match - 1) with
      | none =>
        exfalso
        rw [List.get?_eq_none] at hslc
        omega
      | some slc =>
        refine ⟨ms, slc, by rw [hrs, hbg], hmle, hslc, ?_⟩
        have hp := hpat (g.current_round - 1) (g.current_match - 1) slc
          (by unfold slotAt; rw [hbg]; exact hslc)
        cases hcp : slc.completed with
        | false => rfl
        | true =>
          exfalso
          rw [hcp] at hp
          have := hp.mp rfl
          omega
  · intro hst
    unfold cast_vote
    rw [if_pos hst]

theorem c7_active_cursor_witness :
    Reachable (demo_session 2) ∧
    ((demo_session 2).status = SessionStatus.ACTIVE →
      ∃ ms slc, roundSlots (demo_session 2).bracket_data (demo_session 2).current_round = some ms ∧
        (demo_session 2).current_match ≤ ms.length ∧
        ms.get? ((demo_session 2).current_match - 1) = some slc ∧ slc.completed = false) ∧
    ((demo_session 2).status ≠ SessionStatus.ACTIVE →
      cast_vote (demo_session 2) 1 = (false, demo_session 2)) :=
  ⟨Reachable.create (mkSongs 2) (mkSongs 2) ((generate_bracket_structure (mkSongs 2)).getD [])
      (by decide) (by decide) (by decide) (by decide) (by decide),
    c7_active_cursor (demo_session 2)
      (Reachable.create (mkSongs 2) (mkSongs 2) ((generate_bracket_structure (mkSongs 2)).getD [])
        (by decide) (by decide) (by decide) (by decide) (by decide)) 1⟩

theorem getLast?_eq_get?_sub {α : Type} : ∀ (l : List α), l.getLast? = l.get? (l.length - 1)
  | [] => rfl
  | [_] => rfl
  | a :: b :: rest => by
    rw [List.getLast?_cons_cons, getLast?_eq_get?_sub (b :: rest)]
    show (b :: rest).get? ((b :: rest).length - 1) = (a :: b :: rest).get? ((a :: b :: rest).length - 1)
    simp only [List.length_cons]
    rw [show rest.length + 1 - 1 = rest.length from by omega,
      show rest.length + 1 + 1 - 1 = rest.length + 1 from by omega]
    rfl

theorem updateSong_map_tw (db : List Song) (i : Nat) (f : Song → Song)
    (hf : ∀ s, (f s).tournament_wins = s.tournament_wins) :
    (updateSong db i f).map (fun s => s.tournament_wins)
      = db.map (fun s => s.tournament_wins) := by
  induction db with
  | nil => rfl
  | cons s rest ih =>
    show ((if s.id == i then f s else s) :: updateSong rest i f).map _ = _
    simp only [List.map_cons]
    rw [ih]
    by_cases h : s.id = i
    · simp [h, hf]
    · simp [h]

theorem dbFind_tw_updateSong (db : List Song) (i j : Nat) (f : Song → Song)
    (hfid : ∀ s, (f s).id = s.id) (hf : ∀ s, (f s).tournament_wins = s.tournament_wins) :
    (dbFind (updateSong db i f) j).map (fun s => s.tournament_wins)
      = (dbFind db j).map (fun s => s.tournament_wins) := by
  rw [dbFind_updateSong db i j f hfid]
  cases dbFind db j with
  | none => rfl
  | some s =>
    simp only [Option.map_some']
    by_cases h : s.id = i
    · simp [h, hf]
    · simp [h]

/-- C3: for any reachable session, a `cast_vote` transition sets the status
to `COMPLETED` exactly when the vote succeeds with the cursor on the last
slot of the highest round present in `bracket_data`; at that instant the
chosen song's `tournament_wins` rises by exactly 1, and every other
`cast_vote` transition leaves every song's `tournament_wins` unchanged. -/
theorem c3_completion_law (g : GState) (hg : Reachable g) (c : Nat) :
    (((cast_vote g c).2.status = SessionStatus.COMPLETED ∧ g.status = SessionStatus.ACTIVE) ↔
      ((cast_vote g c).1 = true ∧ g.current_round = g.bracket_data.length ∧
        g.current_match = roundLength g.bracket_data g.current_round)) ∧
    (((cast_vote g c).2.status = SessionStatus.COMPLETED ∧ g.status = SessionStatus.ACTIVE) →
      ∃ s s', dbFind g.db c = some s ∧ dbFind (cast_vote g c).2.db c = some s' ∧
        s'.tournament_wins = s.tournament_wins + 1) ∧
    (¬((cast_vote g c).2.status = SessionStatus.COMPLETED ∧ g.status = SessionStatus.ACTIVE) →
      (cast_vote g c).2.db.map (fun s => s.tournament_wins)
        = g.db.map (fun s => s.tournament_wins)) := by
  obtain ⟨hrne, hlast, hdep, hwc, hact⟩ := reachable_inv g hg
  rcases cast_vote_success_decomp g c with hfail |
    ⟨sl, ms, s1, s2, chosen, hst, hms, hle, hget, h1, h2, hc, hch, hdup, heq⟩
  · rw [hfail]
    refine ⟨?_, ?_, ?_⟩
    · constructor
      · rintro ⟨hC, hA⟩
        have hC' : g.status = SessionStatus.COMPLETED := hC
        rw [hA] at hC'
        exact SessionStatus.noConfusion hC'
      · rintro ⟨hok, _⟩
        exact Bool.noConfusion (hok : false = true)
    · rintro ⟨hC, hA⟩
      have hC' : g.status = SessionStatus.COMPLETED := hC
      rw [hA] at hC'
      exact SessionStatus.noConfusion hC'
    · intro _
      rfl
  · obtain ⟨hrlo, hrhi, hmlo, hmhi, hpat⟩ := hact hst
    set b := g.bracket_data with hbdef
    set r := g.current_round with hrdef
    set m := g.current_match with hmdef
    set mark := (fun sl => { sl with winner := some (winner_dict chosen), completed := true } : Slot → Slot) with hmarkdef
    set ms2 := modifySlot ms (m - 1) mark with hms2def
    set g2 := vote_written g chosen s1 s2 ms with hg2def
    have hb2 : g2.bracket_data = b.set (r - 1) ms2 := rfl
    have hr2 : g2.current_round = r := rfl
    have hm2 : g2.current_match = m := rfl
    have hst2 : g2.status = SessionStatus.ACTIVE := hst
    have hr1 : r - 1 < b.length := by omega
    have hms_get : b.get? (r - 1) = some ms := roundSlots_get? b r ms hms
    have hms2len : ms2.length = ms.length := modifySlot_length ms (m - 1) mark
    have hslot2 : ∀ i j, slotAt (b.set (r - 1) ms2) i j =
        if i = r - 1 then ms2.get? j else slotAt b i j := by
      intro i j
      rw [slotAt_set]
      by_cases h : i = r - 1
      · rw [if_pos ⟨h, hr1⟩, if_pos h]
      · rw [if_neg (by tauto), if_neg h]
    have hms2get : ∀ j, ms2.get? j =
        if j = m - 1 then (ms.get? (m - 1)).map mark else ms.get? j :=
      fun j => modifySlot_get? ms (m - 1) mark j
    have hroundS2 : ∀ r', roundSlots (b.set (r - 1) ms2) r' =
        if r' = r then some ms2 else roundSlots b r' := by
      intro r'
      rw [roundSlots_set]
      by_cases h : r' = r
      · rw [if_pos ⟨by omega, hr1⟩, if_pos h]
      · rw [if_neg (by omega), if_neg h]
    have hpat2 : ∀ i j sl', slotAt (b.set (r - 1) ms2) i j = some sl' →
        (sl'.completed = true ↔ (i + 1 < r ∨ (i + 1 = r ∧ j + 1 ≤ m))) := by
      intro i j sl' hsl'
      rw [hslot2] at hsl'
      by_cases hi : i = r - 1
      · rw [if_pos hi, hms2get] at hsl'
        by_cases hj : j = m - 1
        · rw [if_pos hj, hget] at hsl'
          simp only [Option.map_some', Option.some_inj] at hsl'
          rw [← hsl']
          show true = true ↔ _
          constructor
          · intro _
            right
            exact ⟨by omega, by omega⟩
          · intro _
            rfl
        · rw [if_neg hj] at hsl'
          have hold := hpat i j sl' (by unfold slotAt; rw [hi, hms_get]; exact hsl')
          rw [hold]
          omega
      · rw [if_neg hi] at hsl'
        have hold := hpat i j sl' hsl'
        rw [hold]
        omega
    have hallc : (ms2.all (fun x => x.completed)) = true ↔ ms.length ≤ m := by
      rw [List.all_eq_true]
      constructor
      · intro hall
        by_contra hlt
        push_neg at hlt
        cases hx : ms.get? m with
        | none =>
          rw [List.get?_eq_none] at hx
          omega
        | some slm =>
          have hin2 : ms2.get? m = some slm := by
            rw [hms2get, if_neg (by omega), hx]
          have hcp := hall slm (List.get?_mem hin2)
          have hp := hpat2 (r - 1) m slm (by rw [hslot2, if_pos rfl]; exact hin2)
          rw [hcp] at hp
          have := hp.mp rfl
          omega
      · intro hlen sl' hmem
        obtain ⟨j, hj⟩ := List.mem_iff_get?.mp hmem
        have hjlt : j < ms2.length := by
          by_contra hh
          rw [List.get?_eq_none.mpr (by omega)] at hj
          cases hj
        have hp := hpat2 (r - 1) j sl' (by rw [hslot2, if_pos rfl]; exact hj)
        rw [hp]
        right
        exact ⟨by omega, by omega⟩
    have hrs2r : roundSlots g2.bracket_data g2.current_round = some ms2 := by
      rw [hb2, hr2, hroundS2, if_pos rfl]
    have hok : (cast_vote g c).1 = true := by rw [heq]
    by_cases hcase : m < ms.length
    · have hallf : ms2.all (fun x => x.completed) = false := by
        cases hx : ms2.all (fun x => x.completed)
        · rfl
        · exfalso; have := hallc.mp hx; omega
      have hg3 : update_next_round g2 = g2 := by
        unfold update_next_round
        simp only [hrs2r, hallf]
        simp
      have hadv : advance_to_next_match g2 = { g2 with current_match := g2.current_match + 1 } := by
        unfold advance_to_next_match
        simp only [hrs2r]
        rw [if_pos (show g2.current_match < ms2.length by rw [hm2, hms2len]; exact hcase)]
      have hsteq : (cast_vote g c).2 = { g2 with current_match := g2.current_match + 1 } := by
        rw [heq, hg3, hadv]
      have hstA : (cast_vote g c).2.status = SessionStatus.ACTIVE := by
        rw [hsteq]
        exact hst2
      have hRHSf : ¬(m = roundLength b r) := by
        unfold roundLength
        simp only [hms]
        omega
      refine ⟨?_, ?_, ?_⟩
      · constructor
        · rintro ⟨hC, _⟩
          rw [hstA] at hC
          exact SessionStatus.noConfusion hC
        · rintro ⟨_, _, hm'⟩
          exact absurd hm' hRHSf
      · rintro ⟨hC, _⟩
        rw [hstA] at hC
        exact SessionStatus.noConfusion hC
      · intro _
        rw [hsteq]
        show (updateSong (updateSong g.db chosen.id
            (fun s => { s with total_wins := s.total_wins + 1, total_picks := s.total_picks + 1 }))
            (if chosen.id = s1 then s2 else s1)
            (fun s => { s with total_losses := s.total_losses + 1, total_picks := s.total_picks + 1 })).map
          (fun s => s.tournament_wins) = _
        exact (updateSong_map_tw _ _
            (fun s => { s with total_losses := s.total_losses + 1, total_picks := s.total_picks + 1 })
            (fun s => rfl)).trans
          (updateSong_map_tw _ _
            (fun s => { s with total_wins := s.total_wins + 1, total_picks := s.total_picks + 1 })
            (fun s => rfl))
    · have hmlen : m = ms.length := by omega
      have hallt : ms2.all (fun x => x.completed) = true := hallc.mpr (by omega)
      by_cases hnext : r + 1 ≤ b.length
      · cases hnxt : b.get? r with
        | none =>
          exfalso
          rw [List.get?_eq_none] at hnxt
          omega
        | some nxt =>
          have hrsn : roundSlots g2.bracket_data (g2.current_round + 1) = some nxt := by
            rw [hb2, hr2, hroundS2, if_neg (by omega)]
            rw [roundSlots_of_get? b (r + 1) (by omega) hnext]
            exact hnxt
          set winners := ms2.filterMap (fun x => x.winner) with hwins
          set fp := fillPairs winners nxt 0 with hfpdef
          have hg3 : update_next_round g2 =
              { g2 with bracket_data := (b.set (r - 1) ms2).set r fp } := by
            unfold update_next_round
            simp only [hrs2r, hallt, hrsn]
            simp only [hb2, hr2]
            simp
          have hrlt : r < ((b.set (r - 1) ms2)).length := by
            rw [List.length_set]
            omega
          have e1 : roundSlots ((b.set (r - 1) ms2).set r fp) r = some ms2 := by
            rw [roundSlots_set, if_neg (by omega), hroundS2, if_pos rfl]
          have e2 : roundSlots ((b.set (r - 1) ms2).set r fp) (r + 1) = some fp := by
            rw [roundSlots_set, if_pos ⟨rfl, hrlt⟩]
          have hadv : advance_to_next_match { g2 with bracket_data := (b.set (r - 1) ms2).set r fp }
              = { g2 with bracket_data := (b.set (r - 1) ms2).set r fp, current_round := r + 1, current_match := 1 } := by
            unfold advance_to_next_match
            simp only [e1, hr2, hm2, e2]
            rw [if_neg (by omega : ¬ m < ms2.length)]
            simp
          have hsteq : (cast_vote g c).2
              = { g2 with bracket_data := (b.set (r - 1) ms2).set r fp, current_round := r + 1, current_match := 1 } := by
            rw [heq, hg3, hadv]
          have hstA : (cast_vote g c).2.status = SessionStatus.ACTIVE := by
            rw [hsteq]
            exact hst2
          have hRHSf : ¬(r = b.length) := by omega
          refine ⟨?_, ?_, ?_⟩
          · constructor
            · rintro ⟨hC, _⟩
              rw [hstA] at hC
              exact SessionStatus.noConfusion hC
            · rintro ⟨_, hr', _⟩
              exact absurd hr' hRHSf
          · rintro ⟨hC, _⟩
            rw [hstA] at hC
            exact SessionStatus.noConfusion hC
          · intro _
            rw [hsteq]
            show (updateSong (updateSong g.db chosen.id
                (fun s => { s with total_wins := s.total_wins + 1, total_picks := s.total_picks + 1 }))
                (if chosen.id = s1 then s2 else s1)
                (fun s => { s with total_losses := s.total_losses + 1, total_picks := s.total_picks + 1 })).map
              (fun s => s.tournament_wins) = _
            exact (updateSong_map_tw _ _
                (fun s => { s with total_losses := s.total_losses + 1, total_picks := s.total_picks + 1 })
                (fun s => rfl)).trans
              (updateSong_map_tw _ _
                (fun s => { s with total_wins := s.total_wins + 1, total_picks := s.total_picks + 1 })
                (fun s => rfl))
      · have hreq : r = b.length := by omega
        have hrsn : roundSlots g2.bracket_data (g2.current_round + 1) = none := by
          rw [hb2, hr2, hroundS2, if_neg (by omega)]
          unfold roundSlots
          rw [if_neg (by omega)]
        have hg3 : update_next_round g2 = g2 := by
          unfold update_next_round
          simp only [hrs2r, hallt, hrsn]
          simp
        have hadv : advance_to_next_match g2 =
            record_tournament_winner { g2 with status := SessionStatus.COMPLETED } := by
          unfold advance_to_next_match
          simp only [hrs2r, hrsn]
          rw [if_neg (show ¬g2.current_match < ms2.length by rw [hm2, hms2len]; omega)]
          simp
        have hmsLast : b.getLast? = some ms := by
          rw [getLast?_eq_get?_sub, show b.length - 1 = r - 1 from by omega]
          exact hms_get
        have hms1 : ms.length = 1 := hlast ms hmsLast
        have hm1 : m = 1 := by omega
        have hms2head : ms2.get? 0 = some (mark sl) := by
          rw [hms2get, if_pos (by omega : (0 : Nat) = m - 1), hget]
          rfl
        obtain ⟨tl2, hms2eq⟩ : ∃ tl2, ms2 = mark sl :: tl2 := by
          cases hx : ms2 with
          | nil => rw [hx] at hms2head; cases hms2head
          | cons h t =>
            rw [hx] at hms2head
            simp only [List.get?_cons_zero, Option.some_inj] at hms2head
            exact ⟨t, by rw [hms2head]⟩
        set X := ({ g2 with status := SessionStatus.COMPLETED } : GState) with hXdef
        have hchid : chosen.id = c := dbFind_id g.db c chosen hc
        have htwX : (dbFind X.db c).map (fun s => s.tournament_wins)
            = some chosen.tournament_wins := by
          show (dbFind (updateSong (updateSong g.db chosen.id
              (fun s => { s with total_wins := s.total_wins + 1, total_picks := s.total_picks + 1 }))
              (if chosen.id = s1 then s2 else s1)
              (fun s => { s with total_losses := s.total_losses + 1, total_picks := s.total_picks + 1 })) c).map
            (fun s => s.tournament_wins) = _
          exact (dbFind_tw_updateSong _ _ _
              (fun s => { s with total_losses := s.total_losses + 1, total_picks := s.total_picks + 1 })
              (fun s => rfl) (fun s => rfl)).trans
            ((dbFind_tw_updateSong _ _ _
              (fun s => { s with total_wins := s.total_wins + 1, total_picks := s.total_picks + 1 })
              (fun s => rfl) (fun s => rfl)).trans
              (by rw [hc]; rfl))
        obtain ⟨q, hq, hqtw⟩ : ∃ q, dbFind X.db c = some q ∧
            q.tournament_wins = chosen.tournament_wins := by
          cases hx : dbFind X.db c with
          | none => rw [hx] at htwX; cases htwX
          | some q =>
            rw [hx] at htwX
            simp only [Option.map_some', Option.some_inj] at htwX
            exact ⟨q, rfl, htwX⟩
        have hrsX : roundSlots X.bracket_data X.current_round = some ms2 := hrs2r
        have hwid : (winner_dict chosen).id = c := hchid
        have hrec : record_tournament_winner X =
            { X with db := updateSong X.db c (fun s => { s with tournament_wins := s.tournament_wins + 1 }) } := by
          unfold record_tournament_winner
          simp only [hrsX, hms2eq, hmarkdef]
          simp only [hwid, hq]
        have hsteq : (cast_vote g c).2
            = { X with db := updateSong X.db c (fun s => { s with tournament_wins := s.tournament_wins + 1 }) } := by
          rw [heq, hg3, hadv, hrec]
        have hstC : (cast_vote g c).2.status = SessionStatus.COMPLETED := by
          rw [hsteq]
        refine ⟨?_, ?_, ?_⟩
        · constructor
          · rintro _
            refine ⟨hok, hreq, ?_⟩
            unfold roundLength
            simp only [hms]
            omega
          · rintro _
            exact ⟨hstC, hst⟩
        · rintro _
          refine ⟨chosen, { q with tournament_wins := q.tournament_wins + 1 }, hc, ?_, ?_⟩
          · rw [hsteq]
            show dbFind (updateSong X.db c
              (fun s => { s with tournament_wins := s.tournament_wins + 1 })) c = _
            have hfind := dbFind_updateSong_eq X.db c
              (fun s => { s with tournament_wins := s.tournament_wins + 1 }) (fun s => rfl)
            rw [hq] at hfind
            exact hfind
          · show q.tournament_wins + 1 = chosen.tournament_wins + 1
            rw [hqtw]
        · intro hno
          exact absurd ⟨hstC, hst⟩ hno

theorem c3_completion_law_witness :
    Reachable (demo_session 2) ∧
    ((((cast_vote (demo_session 2) 1).2.status = SessionStatus.COMPLETED ∧
        (demo_session 2).status = SessionStatus.ACTIVE) ↔
      ((cast_vote (demo_session 2) 1).1 = true ∧
        (demo_session 2).current_round = (demo_session 2).bracket_data.length ∧
        (demo_session 2).current_match =
          roundLength (demo_session 2).bracket_data (demo_session 2).current_round)) ∧
    ((((cast_vote (demo_session 2) 1).2.status = SessionStatus.COMPLETED ∧
        (demo_session 2).status = SessionStatus.ACTIVE)) →
      ∃ s s', dbFind (demo_session 2).db 1 = some s ∧
        dbFind (cast_vote (demo_session 2) 1).2.db 1 = some s' ∧
        s'.tournament_wins = s.tournament_wins + 1) ∧
    (¬(((cast_vote (demo_session 2) 1).2.status = SessionStatus.COMPLETED ∧
        (demo_session 2).status = SessionStatus.ACTIVE)) →
      (cast_vote (demo_session 2) 1).2.db.map (fun s => s.tournament_wins)
        = (demo_session 2).db.map (fun s => s.tournament_wins))) :=
  ⟨Reachable.create (mkSongs 2) (mkSongs 2) ((generate_bracket_structure (mkSongs 2)).getD [])
      (by decide) (by decide) (by decide) (by decide) (by decide),
    c3_completion_law (demo_session 2)
      (Reachable.create (mkSongs 2) (mkSongs 2) ((generate_bracket_structure (mkSongs 2)).getD [])
        (by decide) (by decide) (by decide) (by decide) (by decide)) 1⟩

/-- C5 counterexample: in the 6-song bracket, after the three votes that
complete round 1 (winners with ids 1, 3 and 5), round 2 consists of a
single slot whose two sides carry ids 1 and 3 — the winner of round-1
slot 3 (id 5) occupies no side of any next-round slot, contradicting the
claim that every winner of the completed round is written into a
next-round slot. -/
theorem c5_round_propagation_counterexample :
    ((cast_vote (cast_vote (cast_vote (demo_session 6) 1).2 3).2 5).1 = true) ∧
    ((roundSlots (cast_vote (cast_vote (cast_vote (demo_session 6) 1).2 3).2 5).2.bracket_data 1).map
        (fun ms => ms.all (fun sl => sl.completed)) = some true) ∧
    ((roundSlots (cast_vote (cast_vote (cast_vote (demo_session 6) 1).2 3).2 5).2.bracket_data 1).map
        (fun ms => ms.filterMap (fun sl => sl.winner.map (fun w => w.id))) = some [1, 3, 5]) ∧
    ((roundSlots (cast_vote (cast_vote (cast_vote (demo_session 6) 1).2 3).2 5).2.bracket_data 2).map
        (fun ms => ms.all (fun sl =>
          (entrant_id sl.song1 != some 5) && (entrant_id sl.song2 != some 5))) = some true) := by
  decide

/-- C5 amended: when every slot of the current round is completed and a
next round exists, `update_next_round` rewrites the next round so that
slot `k` receives winner `2k` as side A and winner `2k+1` as side B *when
those indices exist in the winners list*, leaving a side untouched (and in
particular dropping any winner of index at least twice the next round's
slot count) otherwise; winner and completed flags of next-round slots are
never modified. -/
theorem c5_round_propagation_amended (g : GState) (ms nxt : List Slot)
    (hms : roundSlots g.bracket_data g.current_round = some ms)
    (hall : ms.all (fun m => m.completed) = true)
    (hnxt : roundSlots g.bracket_data (g.current_round + 1) = some nxt) :
    roundSlots (update_next_round g).bracket_data (g.current_round + 1)
      = some (fillPairs (ms.filterMap (fun m => m.winner)) nxt 0) ∧
    (∀ k sl, nxt.get? k = some sl →
      ∃ sl', (fillPairs (ms.filterMap (fun m => m.winner)) nxt 0).get? k = some sl' ∧
        sl'.song1 = ((ms.filterMap (fun m => m.winner)).get? (2 * k)).elim sl.song1 Entrant.songE ∧
        sl'.song2 = ((ms.filterMap (fun m => m.winner)).get? (2 * k + 1)).elim sl.song2 Entrant.songE ∧
        sl'.winner = sl.winner ∧ sl'.completed = sl.completed) := by
  have hbnd := roundSlots_bounds g.bracket_data (g.current_round + 1) nxt hnxt
  have hup : update_next_round g = { g with bracket_data := (g.bracket_data.set g.current_round (fillPairs (ms.filterMap (fun m => m.winner)) nxt 0)) } := by
    unfold update_next_round
    simp only [hms, hall, hnxt]
    simp
  constructor
  · rw [hup]
    show roundSlots (g.bracket_data.set g.current_round _) _ = _
    rw [roundSlots_set, if_pos ⟨rfl, by omega⟩]
  · intro k sl hk
    rw [fillPairs_get?, hk]
    refine ⟨fillSlot (ms.filterMap (fun m => m.winner)) (0 + k) sl, rfl, ?_⟩
    rw [show 0 + k = k from by omega]
    unfold fillSlot
    cases h1 : (ms.filterMap (fun m => m.winner)).get? (2 * k) with
    | none =>
      cases h2 : (ms.filterMap (fun m => m.winner)).get? (2 * k + 1) with
      | none => exact ⟨rfl, rfl, rfl, rfl⟩
      | some w2 => exact ⟨rfl, rfl, rfl, rfl⟩
    | some w1 =>
      cases h2 : (ms.filterMap (fun m => m.winner)).get? (2 * k + 1) with
      | none => exact ⟨rfl, rfl, rfl, rfl⟩
      | some w2 => exact ⟨rfl, rfl, rfl, rfl⟩

theorem c5_round_propagation_amended_witness :
    (roundSlots demo_c5.bracket_data demo_c5.current_round
        = some ((roundSlots demo_c5.bracket_data 1).getD [])) ∧
    ((((roundSlots demo_c5.bracket_data 1).getD [])).all (fun m => m.completed) = true) ∧
    (roundSlots demo_c5.bracket_data (demo_c5.current_round + 1)
        = some ((roundSlots demo_c5.bracket_data 2).getD [])) ∧
    (roundSlots (update_next_round demo_c5).bracket_data (demo_c5.current_round + 1)
        = some (fillPairs ((((roundSlots demo_c5.bracket_data 1).getD [])).filterMap (fun m => m.winner))
            ((roundSlots demo_c5.bracket_data 2).getD []) 0) ∧
      (∀ k sl, ((roundSlots demo_c5.bracket_data 2).getD []).get? k = some sl →
        ∃ sl', (fillPairs ((((roundSlots demo_c5.bracket_data 1).getD [])).filterMap (fun m => m.winner))
              ((roundSlots demo_c5.bracket_data 2).getD []) 0).get? k = some sl' ∧
          sl'.song1 = (((((roundSlots demo_c5.bracket_data 1).getD [])).filterMap (fun m => m.winner)).get? (2 * k)).elim sl.song1 Entrant.songE ∧
          sl'.song2 = (((((roundSlots demo_c5.bracket_data 1).getD [])).filterMap (fun m => m.winner)).get? (2 * k + 1)).elim sl.song2 Entrant.songE ∧
          sl'.winner = sl.winner ∧ sl'.completed = sl.completed)) :=
  ⟨by decide, by decide, by decide,
    c5_round_propagation_amended demo_c5 ((roundSlots demo_c5.bracket_data 1).getD [])
      ((roundSlots demo_c5.bracket_data 2).getD []) (by decide) (by decide) (by decide)⟩

theorem sumRoundLens_zero : ∀ (n : Nat) (b : BracketData) (a : Nat), b.length < a →
    sumRoundLens b a n = 0
  | 0, _, _, _ => rfl
  | n+1, b, a, h => by
    have h1 : roundLength b a = 0 := by
      unfold roundLength roundSlots
      rw [if_neg (by omega)]
    show roundLength b a + sumRoundLens b (a + 1) n = 0
    rw [h1, sumRoundLens_zero n b (a + 1) (by omega)]

theorem sumRoundLens_split : ∀ (n1 : Nat) (b : BracketData) (a n2 : Nat),
    sumRoundLens b a (n1 + n2) = sumRoundLens b a n1 + sumRoundLens b (a + n1) n2
  | 0, b, a, n2 => by
    simp only [Nat.zero_add, Nat.add_zero]
    show sumRoundLens b a n2 = 0 + sumRoundLens b a n2
    omega
  | n1+1, b, a, n2 => by
    rw [show (n1 + 1) + n2 = (n1 + n2) + 1 from by omega]
    show roundLength b a + sumRoundLens b (a + 1) (n1 + n2)
      = (roundLength b a + sumRoundLens b (a + 1) n1) + sumRoundLens b (a + (n1 + 1)) n2
    rw [sumRoundLens_split n1 b (a + 1) n2,
      show a + 1 + n1 = a + (n1 + 1) from by omega]
    omega

theorem roundLength_cons (x : List Slot) (bs : BracketData) (a : Nat) (ha : 1 ≤ a) :
    roundLength (x :: bs) (a + 1) = roundLength bs a := by
  unfold roundLength roundSlots
  by_cases h : 1 ≤ a ∧ a ≤ bs.length
  · rw [if_pos ⟨by omega, by simp only [List.length_cons]; omega⟩, if_pos h]
    rw [show a + 1 - 1 = (a - 1) + 1 from by omega]
    rfl
  · rw [if_neg (by simp only [List.length_cons]; omega), if_neg h]

theorem sumRoundLens_cons : ∀ (n : Nat) (x : List Slot) (bs : BracketData) (a : Nat), 1 ≤ a →
    sumRoundLens (x :: bs) (a + 1) n = sumRoundLens bs a n
  | 0, _, _, _, _ => rfl
  | n+1, x, bs, a, ha => by
    show roundLength (x :: bs) (a + 1) + sumRoundLens (x :: bs) (a + 1 + 1) n
      = roundLength bs a + sumRoundLens bs (a + 1) n
    rw [roundLength_cons x bs a ha, sumRoundLens_cons n x bs (a + 1) (by omega)]

theorem sumRoundLens_take : ∀ (b : BracketData) (k : Nat), k ≤ b.length →
    sumRoundLens b 1 k = ((b.take k).map (fun ms => ms.length)).sum
  | _, 0, _ => rfl
  | [], k+1, h => by simp at h
  | x :: bs, k+1, h => by
    show roundLength (x :: bs) 1 + sumRoundLens (x :: bs) 2 k = _
    have h1 : roundLength (x :: bs) 1 = x.length := by
      unfold roundLength roundSlots
      rw [if_pos ⟨le_refl 1, by simp only [List.length_cons]; omega⟩]
      rfl
    rw [h1, show (2 : Nat) = 1 + 1 from rfl, sumRoundLens_cons k x bs 1 (le_refl 1),
      sumRoundLens_take bs k (by simp only [List.length_cons] at h; omega)]
    rfl

theorem sumRoundLens_all (b : BracketData) (n : Nat) (hn : b.length ≤ n) :
    sumRoundLens b 1 n = specTotalSlots b := by
  rw [show n = b.length + (n - b.length) from by omega,
    sumRoundLens_split b.length b 1 (n - b.length),
    sumRoundLens_zero (n - b.length) b (1 + b.length) (by omega),
    sumRoundLens_take b b.length (le_refl _)]
  simp [specTotalSlots]

theorem total_decomp (b : BracketData) (r : Nat) (ms : List Slot)
    (hr : 1 ≤ r) (hdep : b.length ≤ 7)
    (hms : roundSlots b r = some ms) :
    sumRoundLens b (r + 1) (8 - (r + 1)) + sumRoundLens b 1 (r - 1) + ms.length
      = specTotalSlots b := by
  have h7 : sumRoundLens b 1 7 = specTotalSlots b := sumRoundLens_all b 7 hdep
  have hrle : r ≤ b.length := (roundSlots_bounds b r ms hms).2
  rw [show (7 : Nat) = (r - 1) + (1 + (7 - r)) from by omega,
    sumRoundLens_split (r - 1) b 1 (1 + (7 - r)),
    sumRoundLens_split 1 b (1 + (r - 1)) (7 - r)] at h7
  have hrl : sumRoundLens b (1 + (r - 1)) 1 = ms.length := by
    show roundLength b (1 + (r - 1)) + sumRoundLens b (1 + (r - 1) + 1) 0 = ms.length
    rw [show 1 + (r - 1) = r from by omega]
    unfold roundLength
    simp only [hms]
    rfl
  rw [hrl, show 1 + (r - 1) + 1 = r + 1 from by omega,
    show 7 - r = 8 - (r + 1) from by omega] at h7
  omega

theorem filter_completed_cutoff : ∀ (ms : List Slot) (t : Nat), t ≤ ms.length →
    (∀ j sl, ms.get? j = some sl → (sl.completed = true ↔ j < t)) →
    (ms.filter (fun sl => sl.completed)).length = t
  | [], t, ht, _ => by simp at ht ⊢; omega
  | x :: rest, t, ht, h => by
    cases t with
    | zero =>
      have hx : x.completed = false := by
        cases hxc : x.completed
        · rfl
        · exfalso
          have := (h 0 x rfl).mp hxc
          omega
      have hrest := filter_completed_cutoff rest 0 (by omega) (fun j sl hj => by
        have := h (j + 1) sl hj
        rw [this]
        omega)
      simp [List.filter_cons, hx, hrest]
    | succ s =>
      have hx : x.completed = true := (h 0 x rfl).mpr (by omega)
      have hrest := filter_completed_cutoff rest s
        (by simp only [List.length_cons] at ht; omega) (fun j sl hj => by
          have := h (j + 1) sl hj
          rw [this]
          omega)
      simp [List.filter_cons, hx, hrest]

theorem completed_sum_zero : ∀ (b : BracketData),
    (∀ i j sl, slotAt b i j = some sl → sl.completed = false) →
    (b.map (fun ms => (ms.filter (fun sl => sl.completed)).length)).sum = 0
  | [], _ => rfl
  | ms :: rest, h => by
    have hhead : (ms.filter (fun sl => sl.completed)).length = 0 :=
      filter_completed_cutoff ms 0 (by omega) (fun j sl hj => by
        have := h 0 j sl (by unfold slotAt; exact hj)
        rw [this]
        simp)
    have hrest := completed_sum_zero rest (fun i j sl hj => h (i + 1) j sl hj)
    simp [hhead, hrest]

theorem completed_sum_pattern : ∀ (b : BracketData) (r m : Nat), 1 ≤ r → r ≤ b.length →
    1 ≤ m → (∀ ms, b.get? (r - 1) = some ms → m ≤ ms.length) →
    (∀ i j sl, slotAt b i j = some sl →
      (sl.completed = true ↔ (i + 1 < r ∨ (i + 1 = r ∧ j + 1 < m)))) →
    (b.map (fun ms => (ms.filter (fun sl => sl.completed)).length)).sum
      = ((b.take (r - 1)).map (fun ms => ms.length)).sum + (m - 1)
  | [], r, m, hr, hrle, _, _, _ => by simp at hrle; omega
  | x :: rest, r, m, hr, hrle, hm, hmhi, hpat => by
    by_cases hr1 : r = 1
    · subst hr1
      have hx : (x.filter (fun sl => sl.completed)).length = m - 1 := by
        apply filter_completed_cutoff x (m - 1) (by have := hmhi x rfl; omega)
        intro j sl hj
        have := hpat 0 j sl (by unfold slotAt; exact hj)
        rw [this]
        omega
      have hrest := completed_sum_zero rest (fun i j sl hj => by
        have := hpat (i + 1) j sl hj
        cases hc : sl.completed
        · rfl
        · exfalso
          have := this.mp hc
          omega)
      simp [hx, hrest]
    · have hr2 : 2 ≤ r := by omega
      have hx : (x.filter (fun sl => sl.completed)).length = x.length := by
        apply filter_completed_cutoff x x.length (le_refl _)
        intro j sl hj
        have hjlt : j < x.length := by
          by_contra hh
          rw [List.get?_eq_none.mpr (by omega)] at hj
          cases hj
        have := hpat 0 j sl (by unfold slotAt; exact hj)
        rw [this]
        omega
      have hIH := completed_sum_pattern rest (r - 1) m (by omega)
        (by simp only [List.length_cons] at hrle; omega) hm
        (fun ms hms => hmhi ms (by
          rw [show r - 1 = (r - 1 - 1) + 1 from by omega]
          exact hms))
        (fun i j sl hj => by
          have := hpat (i + 1) j sl hj
          rw [this]
          omega)
      have htake : (x :: rest).take (r - 1) = x :: rest.take (r - 1 - 1) := by
        rw [show r - 1 = (r - 1 - 1) + 1 from by omega]
        rfl
      rw [List.map_cons, List.sum_cons, hx, hIH, htake, List.map_cons, List.sum_cons]
      omega

/-- C9 amended: for a reachable ACTIVE session the cached `progress_data`
(and hence `calculate_progress`) does report the spec's counts — total =
sum of slot counts across all rounds, completed = number of slots with the
completed flag set, percentage = `round(completed/total*100, 1)` — but for
a COMPLETED session it short-circuits to the literal strings `'All'` with
percentage 100 instead of the numeric counts. -/
theorem c9_progress_amended (g : GState) (hg : Reachable g) :
    (g.status = SessionStatus.ACTIVE →
      progress_data g = ProgressData.mk (specPercentage g.bracket_data)
        (CountVal.num (specCompletedSlots g.bracket_data))
        (CountVal.num (specTotalSlots g.bracket_data)) ∧
      calculate_progress g = ProgressInfo.mk
        (CountVal.num (specCompletedSlots g.bracket_data))
        (CountVal.num (specTotalSlots g.bracket_data))
        (specPercentage g.bracket_data)
        g.current_round g.bracket_data.length) ∧
    (g.status = SessionStatus.COMPLETED →
      progress_data g = ProgressData.mk 100 CountVal.all CountVal.all) := by
  obtain ⟨hrne, hlast, hdep, hwc, hactf⟩ := reachable_inv g hg
  constructor
  · intro hA
    obtain ⟨hrlo, hrhi, hmlo, hmhi, hpat⟩ := hactf hA
    set b := g.bracket_data with hbdef
    set r := g.current_round with hrdef
    set m := g.current_match with hmdef
    cases hmsx : b.get? (r - 1) with
    | none =>
      exfalso
      rw [List.get?_eq_none] at hmsx
      omega
    | some ms =>
      have hms : roundSlots b r = some ms := by
        unfold roundSlots
        rw [if_pos ⟨hrlo, hrhi⟩]
        exact hmsx
      have hmlen : m ≤ ms.length := hmhi ms hmsx
      have hmsne : ms ≠ [] := hrne ms (List.get?_mem hmsx)
      have hmspos : 1 ≤ ms.length := List.length_pos.mpr hmsne
      have htot := total_decomp b r ms hrlo hdep hms
      have hcompEq : sumRoundLens b 1 (r - 1) + (m - 1) = specCompletedSlots b := by
        unfold specCompletedSlots
        rw [completed_sum_pattern b r m hrlo hrhi hmlo hmhi hpat,
          sumRoundLens_take b (r - 1) (by omega)]
      have hTne : ¬ (specTotalSlots b = 0) := by omega
      have hprog : progress_data g = ProgressData.mk (specPercentage b)
          (CountVal.num (specCompletedSlots b)) (CountVal.num (specTotalSlots b)) := by
        unfold progress_data
        rw [if_neg (by rw [hA]; intro hcontr; exact SessionStatus.noConfusion hcontr)]
        simp only [hms]
        rw [if_neg (by omega)]
        unfold specPercentage
        rw [if_neg hTne, ← htot, ← hcompEq]
      exact ⟨hprog, by unfold calculate_progress; rw [hprog]⟩
  · intro hC
    unfold progress_data
    rw [if_pos hC]

/-- C9 counterexample: the completed two-song session has 1 slot in total
and 1 completed slot, yet `calculate_progress` reports the literal `'All'`
(not the numeric count 1) for both fields — the claim's "for any session"
numeric reading fails on COMPLETED sessions. -/
theorem c9_progress_counterexample :
    (cast_vote (demo_session 2) 1).2.status = SessionStatus.COMPLETED ∧
    specTotalSlots (cast_vote (demo_session 2) 1).2.bracket_data = 1 ∧
    specCompletedSlots (cast_vote (demo_session 2) 1).2.bracket_data = 1 ∧
    calculate_progress (cast_vote (demo_session 2) 1).2 =
      ProgressInfo.mk CountVal.all CountVal.all 100 1 1 ∧
    CountVal.all ≠ CountVal.num 1 := by
  decide

theorem c9_progress_amended_witness :
    Reachable (demo_session 2) ∧
    (((demo_session 2).status = SessionStatus.ACTIVE →
      progress_data (demo_session 2) = ProgressData.mk (specPercentage (demo_session 2).bracket_data)
        (CountVal.num (specCompletedSlots (demo_session 2).bracket_data))
        (CountVal.num (specTotalSlots (demo_session 2).bracket_data)) ∧
      calculate_progress (demo_session 2) = ProgressInfo.mk
        (CountVal.num (specCompletedSlots (demo_session 2).bracket_data))
        (CountVal.num (specTotalSlots (demo_session 2).bracket_data))
        (specPercentage (demo_session 2).bracket_data)
        (demo_session 2).current_round (demo_session 2).bracket_data.length) ∧
    ((demo_session 2).status = SessionStatus.COMPLETED →
      progress_data (demo_session 2) = ProgressData.mk 100 CountVal.all CountVal.all)) :=
  ⟨Reachable.create (mkSongs 2) (mkSongs 2) ((generate_bracket_structure (mkSongs 2)).getD [])
      (by decide) (by decide) (by decide) (by decide) (by decide),
    c9_progress_amended (demo_session 2)
      (Reachable.create (mkSongs 2) (mkSongs 2) ((generate_bracket_structure (mkSongs 2)).getD [])
        (by decide) (by decide) (by decide) (by decide) (by decide))⟩
